import Mathlib

/-!
# Verification of the `listbaseball` scraper (`scraping/scraper.py`)

This file gives a shallow embedding of `Ncaa.stats` (scraper.py, lines 159-308)
and of the season-enumeration step it contains, and proves the specified
properties about it.

The remote web site is modelled as an oracle (`Site`): for every request the
scraper can issue, the oracle returns either the parsed payload the Python code
extracts from the response (anchor lists, select controls, tables) or an error
standing for a raised exception (network failure, no tables found).
BeautifulSoup/`pd.read_html` parsing is abstracted into these payloads; the
*positional* selections the code performs on them (`[2:]`, `find_all('select')[2]`,
`read_html(...)[2]`, `pitch_field_url[0]`, `pitch_field_url[1]`) are embedded
explicitly.  Python dicts are embedded as association lists with Python's
insertion/update semantics, and Python exceptions as an `Except` result:
an uncaught exception in `Ncaa.stats` (there is no try/except in the function)
aborts the whole run.
-/

/-- The exceptions the scraper can raise, by kind:
`keyError` from `dict.pop`, `indexError` from a positional lookup `[2]`/`[0]`/`[1]`,
`valueError` from `pd.concat` on an empty collection ("No objects to concatenate"),
`netError` for a failed request or an unparsable response body. -/
inductive Err where
  | keyError (key : String)
  | indexError
  | valueError
  | netError
deriving DecidableEq, Repr

/-- Equality of `Except` results is decidable when both sides are. -/
instance {e a : Type} [DecidableEq e] [DecidableEq a] : DecidableEq (Except e a) :=
  fun x y =>
    match x, y with
    | .error e1, .error e2 =>
      if h : e1 = e2 then isTrue (by rw [h])
      else isFalse fun hc => h (Except.error.inj hc)
    | .error _, .ok _ => isFalse fun hc => Except.noConfusion hc
    | .ok _, .error _ => isFalse fun hc => Except.noConfusion hc
    | .ok a1, .ok a2 =>
      if h : a1 = a2 then isTrue (by rw [h])
      else isFalse fun hc => h (Except.ok.inj hc)

/-- One parsed HTML table, as produced by an element of `pd.read_html(...)`:
its column labels and its data rows (row order as on the page). -/
structure StatTable where
  columns : List String
  rows : List (List String)
deriving DecidableEq, Repr

/-- A `select` control of a page, with its `option` elements as
(displayed text, value attribute) pairs, in page order. -/
structure SelectCtl where
  options : List (String × String)
deriving DecidableEq, Repr

/-- A season stats page as the scraper reads it: its `select` controls in page
order, and its anchors whose href matches `year_stat_category_id`
(text, href), in page order. -/
structure SeasonPage where
  selects : List SelectCtl
  catAnchors : List (String × String)
deriving DecidableEq, Repr

/-- The remote site, as an oracle answering each kind of request the scraper
issues.  `landing url` returns the (text, href) anchors matching
`year_stat_category` on a school's stats landing page; `seasonPage url` returns
a season stats page; `postResp sess url value` returns the tables
`pd.read_html` finds in the response to the situational-stat form POST issued
on session `sess`; `getResp url` returns the tables of a plain GET
(the fielding page).  An `Err` result stands for the raised exception. -/
structure Site where
  landing : String → Except Err (List (String × String))
  seasonPage : String → Except Err SeasonPage
  postResp : Nat → String → String → Except Err (List StatTable)
  getResp : String → Except Err (List StatTable)

/-- Python dict assignment `d[k] = v`: if the key is present its value is
updated in place (keeping its position), otherwise the pair is appended. -/
def dictInsert {α : Type} (d : List (String × α)) (k : String) (v : α) :
    List (String × α) :=
  if d.any (fun p => p.1 == k) then
    d.map (fun p => if p.1 == k then (k, v) else p)
  else d ++ [(k, v)]

/-- Building a Python dict by assigning a sequence of (key, value) pairs in
order into an initially empty dict. -/
def dictOfList {α : Type} (l : List (String × α)) : List (String × α) :=
  l.foldl (fun d p => dictInsert d p.1 p.2) []

/-- Python `d.pop(k)`: removes the key, raising `KeyError` when it is absent. -/
def dictPop {α : Type} (d : List (String × α)) (k : String) :
    Except Err (List (String × α)) :=
  if d.any (fun p => p.1 == k) then .ok (d.filter fun p => !(p.1 == k))
  else .error (.keyError k)

/-- Python list indexing `l[i]`: `IndexError` when out of range. -/
def pyIndex {α : Type} (l : List α) (i : Nat) : Except Err α :=
  match l.get? i with
  | some x => .ok x
  | none => .error .indexError

/-- One situational-stat form POST issued by the scraper: which school/season
iteration issued it, for which category, on which session, to which url,
with which `available_stat_id` value. -/
structure PostEvent where
  school : String
  year : String
  cat : String
  sessionId : Nat
  url : String
  value : String
deriving DecidableEq, Repr

/-- One entry of a season's aggregated data: (category label, situation label,
parsed table).  The concatenations at scraper.py lines 272-278 tag every table
with exactly this pair of labels. -/
abbrev CatEntry := String × String × StatTable

/-- `school_dict` of scraper.py: season label to that season's entries. -/
abbrev YearDict := List (String × List CatEntry)

/-- `master` of scraper.py: school name to that school's per-season data. -/
abbrev SchoolDict := List (String × YearDict)

/-- The four-level label path (school, season, category, situation). -/
abbrev LabelPath := String × String × String × String

/-- `https://stats.ncaa.org`, the base of every url the scraper builds. -/
def baseUrl : String := "https://stats.ncaa.org"

/-- The school stats landing url
`https://stats.ncaa.org/team/{id}/stats/16340` (scraper.py line 188). -/
def landingUrl (sid : String) : String :=
  baseUrl ++ "/team/" ++ sid ++ "/stats/16340"

/-- Season enumeration (scraper.py lines 194-200): keep the anchors matching
`year_stat_category` from the third on (`year_tags[2:]`), build the year dict
from their (text, href) pairs, then `year_ids.pop('2010-11')` — which raises
`KeyError` when that label is absent. -/
def seasonEnum (yearTags : List (String × String)) :
    Except Err (List (String × String)) :=
  dictPop (dictOfList (yearTags.drop 2)) "2010-11"

/-- The per-variant POST loop (scraper.py lines 223-232 and 250-259): for each
(label, value) pair of the variant dict, POST the form with
`available_stat_id = value` on the given session and parse
`pd.read_html(response.text)[2]`, storing the table back under the label.
Returns the issued events and either the (label, table) pairs in dict order or
the first raised exception. -/
def fetchVariants (site : Site) (school year cat url : String) (sess : Nat) :
    List (String × String) → List PostEvent × Except Err (List (String × StatTable))
  | [] => ([], .ok [])
  | (sit, value) :: rest =>
    let ev : PostEvent := ⟨school, year, cat, sess, url, value⟩
    match site.postResp sess url value with
    | .error e => ([ev], .error e)
    | .ok tables =>
      match pyIndex tables 2 with
      | .error e => ([ev], .error e)
      | .ok t =>
        match fetchVariants site school year cat url sess rest with
        | (evs, .error e) => (ev :: evs, .error e)
        | (evs, .ok ts) => (ev :: evs, .ok ((sit, t) :: ts))

/-- One season of one school (scraper.py lines 203-281):
fetch the season base page; read the third `select` control and build the
hitting variant dict from its options; open a fresh session (modelled by the
counter `c`) and run the hitting POST loop; take the first
`year_stat_category_id` anchor of the *base* page as the pitching link, fetch
it, read its third `select`, open another fresh session (`c + 1`) and run the
pitching POST loop; take the second anchor as the fielding link, GET it and
parse its third table, tagged with the single implicit label `"Fielding"`;
finally perform the keyed concatenations (lines 272-278), which raise
`ValueError` when the hitting or pitching dict is empty.
Returns (issued events, next session counter, season entries or exception). -/
def processYear (site : Site) (school year href : String) (c : Nat) :
    List PostEvent × Nat × Except Err (List CatEntry) :=
  let url := baseUrl ++ href
  match site.seasonPage url with
  | .error e => ([], c, .error e)
  | .ok page =>
    match pyIndex page.selects 2 with
    | .error e => ([], c, .error e)
    | .ok sel =>
      match fetchVariants site school year "hitting" url c (dictOfList sel.options) with
      | (evs1, .error e) => (evs1, c + 1, .error e)
      | (evs1, .ok hits) =>
        match pyIndex page.catAnchors 0 with
        | .error e => (evs1, c + 1, .error e)
        | .ok pAnchor =>
          match site.seasonPage (baseUrl ++ pAnchor.2) with
          | .error e => (evs1, c + 1, .error e)
          | .ok ppage =>
            match pyIndex ppage.selects 2 with
            | .error e => (evs1, c + 1, .error e)
            | .ok psel =>
              match fetchVariants site school year "pitching" (baseUrl ++ pAnchor.2)
                  (c + 1) (dictOfList psel.options) with
              | (evs2, .error e) => (evs1 ++ evs2, c + 2, .error e)
              | (evs2, .ok pits) =>
                match pyIndex page.catAnchors 1 with
                | .error e => (evs1 ++ evs2, c + 2, .error e)
                | .ok fAnchor =>
                  match site.getResp (baseUrl ++ fAnchor.2) with
                  | .error e => (evs1 ++ evs2, c + 2, .error e)
                  | .ok ftables =>
                    match pyIndex ftables 2 with
                    | .error e => (evs1 ++ evs2, c + 2, .error e)
                    | .ok ft =>
                      if hits = [] then (evs1 ++ evs2, c + 2, .error .valueError)
                      else if pits = [] then (evs1 ++ evs2, c + 2, .error .valueError)
                      else
                        (evs1 ++ evs2, c + 2,
                          .ok (hits.map (fun p => ("hitting", p.1, p.2)) ++
                               pits.map (fun p => ("pitching", p.1, p.2)) ++
                               [("fielding", "Fielding", ft)]))

/-- The season loop of one school (scraper.py lines 203-281): process each
season in dict order, assigning `school_dict[year_val] = year_stats`; any
raised exception propagates (there is no try/except). -/
def processYears (site : Site) (school : String) :
    List (String × String) → Nat → YearDict →
    List PostEvent × Nat × Except Err YearDict
  | [], c, acc => ([], c, .ok acc)
  | (year, href) :: rest, c, acc =>
    match processYear site school year href c with
    | (evs, c1, .error e) => (evs, c1, .error e)
    | (evs, c1, .ok entries) =>
      match processYears site school rest c1 (dictInsert acc year entries) with
      | (evs2, c2, r) => (evs ++ evs2, c2, r)

/-- One school (scraper.py lines 179-285): fetch the landing page, enumerate
its seasons (skip two anchors, pop the "2010-11" exclusion), process every
season, then `pd.concat(school_dict, ...)` — which raises `ValueError`
("No objects to concatenate") when the school has no remaining season. -/
def processSchool (site : Site) (school sid : String) (c : Nat) :
    List PostEvent × Nat × Except Err YearDict :=
  match site.landing (landingUrl sid) with
  | .error e => ([], c, .error e)
  | .ok yearTags =>
    match seasonEnum yearTags with
    | .error e => ([], c, .error e)
    | .ok years =>
      match processYears site school years c [] with
      | (evs, c1, .error e) => (evs, c1, .error e)
      | (evs, c1, .ok schoolDict) =>
        if schoolDict = [] then (evs, c1, .error .valueError)
        else (evs, c1, .ok schoolDict)

/-- The school loop of `Ncaa.stats` (scraper.py lines 179-285): process each
school of the input dict in order, assigning `master[school] = school_stats`;
any raised exception propagates and aborts the run. -/
def processSchools (site : Site) :
    List (String × String) → Nat → SchoolDict →
    List PostEvent × Nat × Except Err SchoolDict
  | [], c, acc => ([], c, .ok acc)
  | (school, sid) :: rest, c, acc =>
    match processSchool site school sid c with
    | (evs, c1, .error e) => (evs, c1, .error e)
    | (evs, c1, .ok schoolDict) =>
      match processSchools site rest c1 (dictInsert acc school schoolDict) with
      | (evs2, c2, r) => (evs ++ evs2, c2, r)

/-- A row of the final `master_stats` frame: the four path labels and the
within-table row ordinal (`num`) as its five index levels, plus the cells of
the original table row under that table's own column labels. -/
structure MasterRow where
  school : String
  year : String
  stat : String
  situation : String
  num : Nat
  cols : List String
  cells : List String
deriving DecidableEq, Repr

/-- The final `master_stats` frame: its index level names (set at scraper.py
line 289) and, keyed by full label path, the parsed table each path
contributed (the nested keyed concatenations of lines 272-288). -/
structure MasterTable where
  indexNames : List String
  entries : List (LabelPath × StatTable)
deriving DecidableEq, Repr

/-- Flattening the nested school → season → (category, situation) dicts into
path-keyed table entries, in concatenation order. -/
def masterEntries (m : SchoolDict) : List (LabelPath × StatTable) :=
  m.flatMap fun sp => sp.2.flatMap fun yp =>
    yp.2.map fun ce => ((sp.1, yp.1, ce.1, ce.2.1), ce.2.2)

/-- The rows of the final frame: each entry's table rows, tagged with the
entry's path, the within-table ordinal, and the table's own columns. -/
def MasterTable.rows (m : MasterTable) : List MasterRow :=
  m.entries.flatMap fun pt =>
    pt.2.rows.enum.map fun nr =>
      ⟨pt.1.1, pt.1.2.1, pt.1.2.2.1, pt.1.2.2.2, nr.1, pt.2.columns, nr.2⟩

/-- `Ncaa.stats` (scraper.py lines 159-308) over an abstract site: run the
school loop from a fresh session counter, then `pd.concat(master, ...)` —
`ValueError` when no school was given — then set the index level names
(line 289).  Line 290 computes `master_stats.droplevel('num')` but discards
the result, so the `num` level stays.  Returns the POST events the run issued
and either the frame handed to `to_sql`/returned, or the raised exception. -/
def stats (schoolIds : List (String × String)) (site : Site) :
    List PostEvent × Except Err MasterTable :=
  match processSchools site schoolIds 0 [] with
  | (evs, _, .error e) => (evs, .error e)
  | (evs, _, .ok master) =>
    if master.isEmpty then (evs, .error .valueError)
    else
      (evs, .ok { indexNames := ["school", "year", "stat", "situation", "num"],
                  entries := masterEntries master })

/-- Keys of a list in first-occurrence order, without repetitions. -/
def firstKeys : List String → List String
  | [] => []
  | k :: t => k :: firstKeys (t.filter fun x => !(x == k))
termination_by l => l.length
decreasing_by
  simp only [List.length_cons]
  exact Nat.lt_succ_of_le (List.length_filter_le _ _)

/-- Splitting a list of rows along a label boundary: one piece per distinct
label, in first-occurrence order, each piece keeping row order. -/
def splitBy {α : Type} (f : α → String) (l : List α) : List (String × List α) :=
  (firstKeys (l.map f)).map fun k => (k, l.filter fun a => f a == k)

/-- Re-aggregating split pieces by concatenation; rows keep their own label
tags, so this is the same label-path tagging the aggregator uses. -/
def mergeBy {α : Type} (d : List (String × List α)) : List α :=
  d.flatMap fun p => p.2


/-- An empty placeholder table (the first two tables of each response). -/
def emptyTable : StatTable := ⟨[], []⟩

/-- A small stat table whose rows record the variant value that fetched it. -/
def tblOf (v : String) : StatTable := ⟨["AB", "H"], [[v, "1"], [v, "2"]]⟩

/-- The single fielding table of the concrete sites below. -/
def fieldTable : StatTable := ⟨["PO"], [["3"]]⟩

/-- A concrete site on which a full run succeeds: one school page with two
boilerplate anchors, the excluded "2010-11" season and one real season; the
season page has two hitting variants, one pitching variant and the two
category-switch anchors. -/
def siteOK : Site where
  landing u := if u == landingUrl "1" then
      .ok [("Home", "/h1"), ("Teams", "/h2"), ("2010-11", "/y0"), ("2014-15", "/y1")]
    else .error .netError
  seasonPage u :=
    if u == baseUrl ++ "/y1" then
      .ok ⟨[⟨[]⟩, ⟨[]⟩, ⟨[("Overall", "s0"), ("Conference", "s1")]⟩],
           [("Pitching", "/p1"), ("Fielding", "/f1")]⟩
    else if u == baseUrl ++ "/p1" then
      .ok ⟨[⟨[]⟩, ⟨[]⟩, ⟨[("Overall", "s0")]⟩],
           [("PitchLink", "/q1"), ("FieldLink", "/q2")]⟩
    else .error .netError
  postResp _ _ v := .ok [emptyTable, emptyTable, tblOf v]
  getResp u := if u == baseUrl ++ "/f1" then .ok [emptyTable, emptyTable, fieldTable]
    else .error .netError

/-- The school dict for runs against `siteOK` and its variations. -/
def idsOK : List (String × String) := [("Alpha", "1")]

/-- Like `siteOK`, but the hitting dropdown's only option has an empty label. -/
def siteC1 : Site where
  landing u := if u == landingUrl "1" then
      .ok [("Home", "/h1"), ("Teams", "/h2"), ("2010-11", "/y0"), ("2014-15", "/y1")]
    else .error .netError
  seasonPage u :=
    if u == baseUrl ++ "/y1" then
      .ok ⟨[⟨[]⟩, ⟨[]⟩, ⟨[("", "s0")]⟩], [("Pitching", "/p1"), ("Fielding", "/f1")]⟩
    else if u == baseUrl ++ "/p1" then
      .ok ⟨[⟨[]⟩, ⟨[]⟩, ⟨[("Overall", "s0")]⟩],
           [("PitchLink", "/q1"), ("FieldLink", "/q2")]⟩
    else .error .netError
  postResp _ _ v := .ok [emptyTable, emptyTable, tblOf v]
  getResp u := if u == baseUrl ++ "/f1" then .ok [emptyTable, emptyTable, fieldTable]
    else .error .netError

/-- Like `siteOK`, but the POST for the second hitting variant ("Conference",
value "s1") fails — scraper.py lines 226-231 have no try/except around it. -/
def siteC2 : Site where
  landing u := if u == landingUrl "1" then
      .ok [("Home", "/h1"), ("Teams", "/h2"), ("2010-11", "/y0"), ("2014-15", "/y1")]
    else .error .netError
  seasonPage u :=
    if u == baseUrl ++ "/y1" then
      .ok ⟨[⟨[]⟩, ⟨[]⟩, ⟨[("Overall", "s0"), ("Conference", "s1")]⟩],
           [("Pitching", "/p1"), ("Fielding", "/f1")]⟩
    else if u == baseUrl ++ "/p1" then
      .ok ⟨[⟨[]⟩, ⟨[]⟩, ⟨[("Overall", "s0")]⟩],
           [("PitchLink", "/q1"), ("FieldLink", "/q2")]⟩
    else .error .netError
  postResp _ _ v := if v == "s1" then .error .netError
    else .ok [emptyTable, emptyTable, tblOf v]
  getResp u := if u == baseUrl ++ "/f1" then .ok [emptyTable, emptyTable, fieldTable]
    else .error .netError

/-- A site with two schools: school id "1" has no season besides the excluded
"2010-11"; school id "2" has the same complete data as `siteOK`. -/
def siteC3 : Site where
  landing u := if u == landingUrl "1" then
      .ok [("Home", "/h1"), ("Teams", "/h2"), ("2010-11", "/y0")]
    else if u == landingUrl "2" then
      .ok [("Home", "/h1"), ("Teams", "/h2"), ("2010-11", "/y0"), ("2014-15", "/y1")]
    else .error .netError
  seasonPage u :=
    if u == baseUrl ++ "/y1" then
      .ok ⟨[⟨[]⟩, ⟨[]⟩, ⟨[("Overall", "s0"), ("Conference", "s1")]⟩],
           [("Pitching", "/p1"), ("Fielding", "/f1")]⟩
    else if u == baseUrl ++ "/p1" then
      .ok ⟨[⟨[]⟩, ⟨[]⟩, ⟨[("Overall", "s0")]⟩],
           [("PitchLink", "/q1"), ("FieldLink", "/q2")]⟩
    else .error .netError
  postResp _ _ v := .ok [emptyTable, emptyTable, tblOf v]
  getResp u := if u == baseUrl ++ "/f1" then .ok [emptyTable, emptyTable, fieldTable]
    else .error .netError

/-- Like `siteOK`, but the landing page has no "2010-11" season anchor. -/
def siteC10 : Site where
  landing u := if u == landingUrl "1" then
      .ok [("Home", "/h1"), ("Teams", "/h2"), ("2014-15", "/y1")]
    else .error .netError
  seasonPage u :=
    if u == baseUrl ++ "/y1" then
      .ok ⟨[⟨[]⟩, ⟨[]⟩, ⟨[("Overall", "s0"), ("Conference", "s1")]⟩],
           [("Pitching", "/p1"), ("Fielding", "/f1")]⟩
    else if u == baseUrl ++ "/p1" then
      .ok ⟨[⟨[]⟩, ⟨[]⟩, ⟨[("Overall", "s0")]⟩],
           [("PitchLink", "/q1"), ("FieldLink", "/q2")]⟩
    else .error .netError
  postResp _ _ v := .ok [emptyTable, emptyTable, tblOf v]
  getResp u := if u == baseUrl ++ "/f1" then .ok [emptyTable, emptyTable, fieldTable]
    else .error .netError

/-! ## Association-list (Python dict) lemmas -/

lemma mem_dictInsert {α : Type} {d : List (String × α)} {k : String} {v : α}
    {p : String × α} (h : p ∈ dictInsert d k v) : p ∈ d ∨ p = (k, v) := by
  unfold dictInsert at h
  split at h
  · rcases List.mem_map.mp h with ⟨q, hq, hqe⟩
    by_cases hk : q.1 == k
    · right
      rw [if_pos hk] at hqe
      exact hqe.symm
    · left
      rw [if_neg hk] at hqe
      exact hqe ▸ hq
  · rcases List.mem_append.mp h with h1 | h1
    · exact Or.inl h1
    · exact Or.inr (by simpa using h1)

lemma keys_dictInsert {α : Type} (d : List (String × α)) (k : String) (v : α) :
    (dictInsert d k v).map Prod.fst = d.map Prod.fst ++
      (if d.any (fun p => p.1 == k) then [] else [k]) := by
  unfold dictInsert
  split
  · rw [List.append_nil, List.map_map]
    refine List.map_congr_left fun q _ => ?_
    by_cases hk : q.1 == k
    · simp only [Function.comp, hk, if_pos]
      exact (eq_of_beq hk).symm
    · simp [Function.comp, hk]
  · simp

lemma nodup_keys_dictInsert {α : Type} {d : List (String × α)} {k : String} {v : α}
    (h : (d.map Prod.fst).Nodup) : ((dictInsert d k v).map Prod.fst).Nodup := by
  rw [keys_dictInsert]
  split
  · simpa using h
  · next hany =>
    have hk : k ∉ d.map Prod.fst := by
      intro hmem
      rcases List.mem_map.mp hmem with ⟨q, hq, hqe⟩
      exact hany (List.any_eq_true.mpr ⟨q, hq, by simp [hqe]⟩)
    refine List.Nodup.append h (List.nodup_singleton k) ?_
    intro a ha hb
    rw [List.mem_singleton] at hb
    exact hk (hb ▸ ha)

lemma mem_keys_dictInsert {α : Type} {d : List (String × α)} {k x : String} {v : α} :
    x ∈ (dictInsert d k v).map Prod.fst ↔ x ∈ d.map Prod.fst ∨ x = k := by
  rw [keys_dictInsert]
  constructor
  · intro h
    rcases List.mem_append.mp h with h1 | h1
    · exact Or.inl h1
    · right
      split at h1
      · simp at h1
      · simpa using h1
  · intro h
    rcases h with h1 | h1
    · exact List.mem_append.mpr (Or.inl h1)
    · subst h1
      by_cases hany : d.any (fun p => p.1 == x)
      · rcases List.any_eq_true.mp hany with ⟨q, hq, hqe⟩
        refine List.mem_append.mpr (Or.inl ?_)
        exact List.mem_map.mpr ⟨q, hq, eq_of_beq hqe⟩
      · simp [hany]

lemma mem_foldl_dictInsert {α : Type} {l : List (String × α)}
    {acc : List (String × α)} {p : String × α}
    (h : p ∈ l.foldl (fun d q => dictInsert d q.1 q.2) acc) : p ∈ acc ∨ p ∈ l := by
  induction l generalizing acc with
  | nil => exact Or.inl h
  | cons q t ih =>
    simp only [List.foldl_cons] at h
    rcases ih h with h1 | h1
    · rcases mem_dictInsert h1 with h2 | h2
      · exact Or.inl h2
      · exact Or.inr (by simp [h2])
    · exact Or.inr (List.mem_cons_of_mem _ h1)

lemma mem_dictOfList {α : Type} {l : List (String × α)} {p : String × α}
    (h : p ∈ dictOfList l) : p ∈ l := by
  rcases mem_foldl_dictInsert h with h1 | h1
  · simp at h1
  · exact h1

lemma nodup_keys_foldl_dictInsert {α : Type} (l : List (String × α))
    (acc : List (String × α)) (h : (acc.map Prod.fst).Nodup) :
    (((l.foldl (fun d q => dictInsert d q.1 q.2) acc)).map Prod.fst).Nodup := by
  induction l generalizing acc with
  | nil => simpa using h
  | cons q t ih => exact ih _ (nodup_keys_dictInsert h)

lemma nodup_keys_dictOfList {α : Type} (l : List (String × α)) :
    ((dictOfList l).map Prod.fst).Nodup :=
  nodup_keys_foldl_dictInsert l [] (by simp)

lemma mem_keys_foldl_dictInsert {α : Type} {l acc : List (String × α)} {x : String} :
    x ∈ ((l.foldl (fun d q => dictInsert d q.1 q.2) acc)).map Prod.fst ↔
      x ∈ acc.map Prod.fst ∨ x ∈ l.map Prod.fst := by
  induction l generalizing acc with
  | nil => simp
  | cons q t ih =>
    simp only [List.foldl_cons, ih, mem_keys_dictInsert, List.map_cons, List.mem_cons]
    tauto

lemma mem_keys_dictOfList {α : Type} {l : List (String × α)} {x : String} :
    x ∈ (dictOfList l).map Prod.fst ↔ x ∈ l.map Prod.fst := by
  unfold dictOfList
  rw [mem_keys_foldl_dictInsert]
  simp

lemma dictPop_ok {α : Type} {d : List (String × α)} {k : String}
    {m : List (String × α)} (h : dictPop d k = .ok m) :
    m = d.filter (fun p => !(p.1 == k)) ∧ k ∈ d.map Prod.fst := by
  unfold dictPop at h
  split at h
  · next hany =>
    rcases List.any_eq_true.mp hany with ⟨q, hq, hqe⟩
    exact ⟨(Except.ok.injEq _ _ ▸ h).symm ▸ rfl,
      List.mem_map.mpr ⟨q, hq, eq_of_beq hqe⟩⟩
  · exact absurd h (by simp)

lemma dictPop_error {α : Type} {d : List (String × α)} {k : String}
    (h : k ∉ d.map Prod.fst) : dictPop d k = .error (.keyError k) := by
  unfold dictPop
  rw [if_neg]
  intro hany
  rcases List.any_eq_true.mp hany with ⟨q, hq, hqe⟩
  exact h (List.mem_map.mpr ⟨q, hq, eq_of_beq hqe⟩)

lemma pyIndex_ok {α : Type} {l : List α} {i : Nat} {x : α} :
    pyIndex l i = .ok x ↔ l.get? i = some x := by
  unfold pyIndex
  rcases h : l.get? i with _ | y <;> simp [h]

/-! ## Lemmas about the per-variant POST loop -/

lemma fetchVariants_ok {site : Site} {school year cat url : String} {sess : Nat}
    {vars : List (String × String)} {evs : List PostEvent}
    {ts : List (String × StatTable)}
    (h : fetchVariants site school year cat url sess vars = (evs, .ok ts)) :
    ts.map Prod.fst = vars.map Prod.fst ∧
      ∀ st ∈ ts, ∃ val tables, (st.1, val) ∈ vars ∧
        site.postResp sess url val = .ok tables ∧ tables.get? 2 = some st.2 := by
  induction vars generalizing evs ts with
  | nil =>
    simp only [fetchVariants, Prod.mk.injEq, Except.ok.injEq] at h
    obtain ⟨rfl, rfl⟩ := h
    simp
  | cons hd tl ih =>
    obtain ⟨sit, value⟩ := hd
    simp only [fetchVariants] at h
    rcases hpost : site.postResp sess url value with e | tables
    · rw [hpost] at h
      simp at h
    · simp only [hpost, pyIndex] at h
      rcases hget : tables.get? 2 with _ | t
      · rw [hget] at h
        simp at h
      · simp only [hget] at h
        rcases hrec : fetchVariants site school year cat url sess tl with ⟨evs1, r1⟩
        rw [hrec] at h
        rcases r1 with e1 | ts1
        · simp at h
        · simp only [Prod.mk.injEq, Except.ok.injEq] at h
          obtain ⟨rfl, rfl⟩ := h
          obtain ⟨ihk, ihm⟩ := ih hrec
          constructor
          · simp [ihk]
          · intro st hst
            rcases List.mem_cons.mp hst with h1 | h1
            · subst h1
              exact ⟨value, tables, List.mem_cons_self _ _, hpost, hget⟩
            · rcases ihm st h1 with ⟨val, tbs, hv, hp, hg⟩
              exact ⟨val, tbs, List.mem_cons_of_mem _ hv, hp, hg⟩

lemma fetchVariants_events {site : Site} {school year cat url : String} {sess : Nat}
    {vars : List (String × String)} :
    ∀ e ∈ (fetchVariants site school year cat url sess vars).1,
      e.school = school ∧ e.year = year ∧ e.cat = cat ∧ e.sessionId = sess := by
  induction vars with
  | nil => simp [fetchVariants]
  | cons hd tl ih =>
    obtain ⟨sit, value⟩ := hd
    simp only [fetchVariants]
    rcases hpost : site.postResp sess url value with e | tables
    · simp
    · simp only [pyIndex]
      rcases hget : tables.get? 2 with _ | t
      · simp
      · rcases hrec : fetchVariants site school year cat url sess tl with ⟨evs1, r1⟩
        rw [hrec] at ih
        rcases r1 with e1 | ts1 <;>
          · intro e he
            rcases List.mem_cons.mp he with h1 | h1
            · subst h1; exact ⟨rfl, rfl, rfl, rfl⟩
            · exact ih e h1

lemma fetchVariants_error {site : Site} {school year cat url : String} {sess : Nat}
    {vars : List (String × String)} {sit val : String} {err : Err}
    (hmem : (sit, val) ∈ vars) (hpost : site.postResp sess url val = .error err) :
    ∃ e, (fetchVariants site school year cat url sess vars).2 = .error e := by
  induction vars with
  | nil => simp at hmem
  | cons hd tl ih =>
    obtain ⟨s0, v0⟩ := hd
    simp only [fetchVariants]
    rcases List.mem_cons.mp hmem with h1 | h1
    · obtain ⟨rfl, rfl⟩ := Prod.mk.injEq .. |>.mp h1
      rw [hpost]
      exact ⟨err, rfl⟩
    · rcases hp0 : site.postResp sess url v0 with e0 | tables0
      · exact ⟨e0, rfl⟩
      · simp only [pyIndex]
        rcases hg0 : tables0.get? 2 with _ | t0
        · exact ⟨.indexError, rfl⟩
        · rcases hrec : fetchVariants site school year cat url sess tl with ⟨evs1, r1⟩
          rcases ih h1 with ⟨e1, he1⟩
          rw [hrec] at he1
          rcases r1 with e2 | ts1
          · exact ⟨e2, rfl⟩
          · simp at he1

/-! ## Lemmas about one season (`processYear`) -/

lemma processYear_ok {site : Site} {school year href : String} {c : Nat}
    {evs : List PostEvent} {c2 : Nat} {entries : List CatEntry}
    (h : processYear site school year href c = (evs, c2, .ok entries)) :
    ∃ page sel evs1 hits pA ppage psel evs2 pits fA ftables ft,
      site.seasonPage (baseUrl ++ href) = .ok page ∧
      page.selects.get? 2 = some sel ∧
      fetchVariants site school year "hitting" (baseUrl ++ href) c
        (dictOfList sel.options) = (evs1, .ok hits) ∧
      page.catAnchors.get? 0 = some pA ∧
      site.seasonPage (baseUrl ++ pA.2) = .ok ppage ∧
      ppage.selects.get? 2 = some psel ∧
      fetchVariants site school year "pitching" (baseUrl ++ pA.2) (c + 1)
        (dictOfList psel.options) = (evs2, .ok pits) ∧
      page.catAnchors.get? 1 = some fA ∧
      site.getResp (baseUrl ++ fA.2) = .ok ftables ∧
      ftables.get? 2 = some ft ∧
      hits ≠ [] ∧ pits ≠ [] ∧
      evs = evs1 ++ evs2 ∧ c2 = c + 2 ∧
      entries = hits.map (fun p => ("hitting", p.1, p.2)) ++
                pits.map (fun p => ("pitching", p.1, p.2)) ++
                [("fielding", "Fielding", ft)] := by
  simp only [processYear, pyIndex] at h
  rcases h1 : site.seasonPage (baseUrl ++ href) with e | page
  · rw [h1] at h; simp at h
  · simp only [h1] at h
    rcases h2 : page.selects.get? 2 with _ | sel
    · rw [h2] at h; simp at h
    · simp only [h2] at h
      rcases h3 : fetchVariants site school year "hitting" (baseUrl ++ href) c
          (dictOfList sel.options) with ⟨evs1, r1⟩
      rw [h3] at h
      rcases r1 with e | hits
      · simp at h
      · rcases h4 : page.catAnchors.get? 0 with _ | pA
        · rw [h4] at h; simp at h
        · simp only [h4] at h
          rcases h5 : site.seasonPage (baseUrl ++ pA.2) with e | ppage
          · rw [h5] at h; simp at h
          · simp only [h5] at h
            rcases h6 : ppage.selects.get? 2 with _ | psel
            · rw [h6] at h; simp at h
            · simp only [h6] at h
              rcases h7 : fetchVariants site school year "pitching" (baseUrl ++ pA.2)
                  (c + 1) (dictOfList psel.options) with ⟨evs2, r2⟩
              rw [h7] at h
              rcases r2 with e | pits
              · simp at h
              · rcases h8 : page.catAnchors.get? 1 with _ | fA
                · rw [h8] at h; simp at h
                · simp only [h8] at h
                  rcases h9 : site.getResp (baseUrl ++ fA.2) with e | ftables
                  · rw [h9] at h; simp at h
                  · simp only [h9] at h
                    rcases h10 : ftables.get? 2 with _ | ft
                    · rw [h10] at h; simp at h
                    · simp only [h10] at h
                      by_cases hh : hits = []
                      · rw [if_pos hh] at h; simp at h
                      · rw [if_neg hh] at h
                        by_cases hp : pits = []
                        · rw [if_pos hp] at h; simp at h
                        · rw [if_neg hp] at h
                          simp only [Prod.mk.injEq, Except.ok.injEq] at h
                          obtain ⟨rfl, rfl, rfl⟩ := h
                          exact ⟨page, sel, evs1, hits, pA, ppage, psel, evs2, pits,
                            fA, ftables, ft, rfl, h2, h3, h4, h5, h6, h7, h8, h9,
                            h10, hh, hp, rfl, rfl, rfl⟩

lemma processYear_events {site : Site} {school year href : String} {c : Nat}
    {evs : List PostEvent} {c2 : Nat} {r : Except Err (List CatEntry)}
    (h : processYear site school year href c = (evs, c2, r)) :
    ∀ e ∈ evs, e.school = school ∧ e.year = year ∧
      ((e.cat = "hitting" ∧ e.sessionId = c) ∨
       (e.cat = "pitching" ∧ e.sessionId = c + 1)) := by
  simp only [processYear, pyIndex] at h
  rcases h1 : site.seasonPage (baseUrl ++ href) with e | page
  · rw [h1] at h
    simp only [Prod.mk.injEq] at h
    obtain ⟨rfl, rfl, rfl⟩ := h
    simp
  · simp only [h1] at h
    rcases h2 : page.selects.get? 2 with _ | sel
    · rw [h2] at h
      simp only [Prod.mk.injEq] at h
      obtain ⟨rfl, rfl, rfl⟩ := h
      simp
    · simp only [h2] at h
      rcases h3 : fetchVariants site school year "hitting" (baseUrl ++ href) c
          (dictOfList sel.options) with ⟨evs1, r1⟩
      rw [h3] at h
      have tail1 : ∀ e ∈ evs1, e.school = school ∧ e.year = year ∧
          ((e.cat = "hitting" ∧ e.sessionId = c) ∨
           (e.cat = "pitching" ∧ e.sessionId = c + 1)) := by
        intro e he
        obtain ⟨a, b, d1, d2⟩ := fetchVariants_events e (by rw [h3]; exact he)
        exact ⟨a, b, Or.inl ⟨d1, d2⟩⟩
      rcases r1 with e | hits
      · simp only [Prod.mk.injEq] at h
        obtain ⟨rfl, rfl, rfl⟩ := h
        exact tail1
      · rcases h4 : page.catAnchors.get? 0 with _ | pA
        · rw [h4] at h
          simp only [Prod.mk.injEq] at h
          obtain ⟨rfl, rfl, rfl⟩ := h
          exact tail1
        · simp only [h4] at h
          rcases h5 : site.seasonPage (baseUrl ++ pA.2) with e | ppage
          · rw [h5] at h
            simp only [Prod.mk.injEq] at h
            obtain ⟨rfl, rfl, rfl⟩ := h
            exact tail1
          · simp only [h5] at h
            rcases h6 : ppage.selects.get? 2 with _ | psel
            · rw [h6] at h
              simp only [Prod.mk.injEq] at h
              obtain ⟨rfl, rfl, rfl⟩ := h
              exact tail1
            · simp only [h6] at h
              rcases h7 : fetchVariants site school year "pitching" (baseUrl ++ pA.2)
                  (c + 1) (dictOfList psel.options) with ⟨evs2, r2⟩
              rw [h7] at h
              have tail12 : ∀ e ∈ evs1 ++ evs2, e.school = school ∧ e.year = year ∧
                  ((e.cat = "hitting" ∧ e.sessionId = c) ∨
                   (e.cat = "pitching" ∧ e.sessionId = c + 1)) := by
                intro e he
                rcases List.mem_append.mp he with hm | hm
                · exact tail1 e hm
                · obtain ⟨a, b, d1, d2⟩ := fetchVariants_events e (by rw [h7]; exact hm)
                  exact ⟨a, b, Or.inr ⟨d1, d2⟩⟩
              rcases r2 with e | pits
              · simp only [Prod.mk.injEq] at h
                obtain ⟨rfl, rfl, rfl⟩ := h
                exact tail12
              · rcases h8 : page.catAnchors.get? 1 with _ | fA
                · rw [h8] at h
                  simp only [Prod.mk.injEq] at h
                  obtain ⟨rfl, rfl, rfl⟩ := h
                  exact tail12
                · simp only [h8] at h
                  rcases h9 : site.getResp (baseUrl ++ fA.2) with e | ftables
                  · rw [h9] at h
                    simp only [Prod.mk.injEq] at h
                    obtain ⟨rfl, rfl, rfl⟩ := h
                    exact tail12
                  · simp only [h9] at h
                    rcases h10 : ftables.get? 2 with _ | ft
                    · rw [h10] at h
                      simp only [Prod.mk.injEq] at h
                      obtain ⟨rfl, rfl, rfl⟩ := h
                      exact tail12
                    · simp only [h10] at h
                      by_cases hh : hits = []
                      · rw [if_pos hh] at h
                        simp only [Prod.mk.injEq] at h
                        obtain ⟨rfl, rfl, rfl⟩ := h
                        exact tail12
                      · rw [if_neg hh] at h
                        by_cases hp : pits = []
                        · rw [if_pos hp] at h
                          simp only [Prod.mk.injEq] at h
                          obtain ⟨rfl, rfl, rfl⟩ := h
                          exact tail12
                        · rw [if_neg hp] at h
                          simp only [Prod.mk.injEq] at h
                          obtain ⟨rfl, rfl, rfl⟩ := h
                          exact tail12

lemma processYear_ok_counter {site : Site} {school year href : String} {c : Nat}
    {evs : List PostEvent} {c2 : Nat} {entries : List CatEntry}
    (h : processYear site school year href c = (evs, c2, .ok entries)) :
    c2 = c + 2 := by
  obtain ⟨p1, p2, p3, p4, p5, p6, p7, p8, p9, p10, p11, p12, hA, hB, hC, hD,
    hE, hF, hG, hH, hI, hJ, hK, hL, hM, hN, hO⟩ := processYear_ok h
  exact hN

lemma processYear_error_variant {site : Site} {school year href : String} {c : Nat}
    {page : SeasonPage} {sel : SelectCtl} {sit val : String} {err : Err}
    (hpage : site.seasonPage (baseUrl ++ href) = .ok page)
    (hsel : page.selects.get? 2 = some sel)
    (hmem : (sit, val) ∈ dictOfList sel.options)
    (hpost : site.postResp c (baseUrl ++ href) val = .error err) :
    ∃ e, (processYear site school year href c).2.2 = .error e := by
  simp only [processYear, pyIndex, hpage, hsel]
  rcases fetchVariants_error hmem hpost with ⟨e1, he1⟩
  rcases hfv : fetchVariants site school year "hitting" (baseUrl ++ href) c
      (dictOfList sel.options) with ⟨evs1, r1⟩
  rw [hfv] at he1
  simp only at he1
  rw [he1]
  exact ⟨e1, rfl⟩

/-! ## Lemmas about the season and school loops -/

lemma processYears_parity {site : Site} {school : String} :
    ∀ {years : List (String × String)} {c : Nat} {acc : YearDict}
      {evs : List PostEvent} {c2 : Nat} {r : Except Err YearDict},
      processYears site school years c acc = (evs, c2, r) → c % 2 = 0 →
      (∀ e ∈ evs, (e.cat = "hitting" → e.sessionId % 2 = 0) ∧
        (e.cat = "pitching" → e.sessionId % 2 = 1)) ∧
      (∀ d, r = .ok d → c2 % 2 = 0) := by
  intro years
  induction years with
  | nil =>
    intro c acc evs c2 r h hc
    simp only [processYears, Prod.mk.injEq] at h
    obtain ⟨rfl, rfl, rfl⟩ := h
    exact ⟨by simp, fun d _ => hc⟩
  | cons hd t ih =>
    obtain ⟨year, href⟩ := hd
    intro c acc evs c2 r h hc
    simp only [processYears] at h
    rcases hpy : processYear site school year href c with ⟨evs0, c1, r1⟩
    rw [hpy] at h
    have hev0 : ∀ e ∈ evs0, (e.cat = "hitting" → e.sessionId % 2 = 0) ∧
        (e.cat = "pitching" → e.sessionId % 2 = 1) := by
      intro e he
      obtain ⟨_, _, hcase⟩ := processYear_events hpy e he
      rcases hcase with ⟨h1, h2⟩ | ⟨h1, h2⟩
      · refine ⟨fun _ => h2 ▸ hc, fun hcat => ?_⟩
        rw [h1] at hcat
        exact absurd hcat (by decide)
      · refine ⟨fun hcat => ?_, fun _ => by omega⟩
        rw [h1] at hcat
        exact absurd hcat (by decide)
    rcases r1 with e1 | entries
    · simp only [Prod.mk.injEq] at h
      obtain ⟨rfl, rfl, rfl⟩ := h
      exact ⟨hev0, fun d hd => absurd hd (by simp)⟩
    · rcases hrec : processYears site school t c1 (dictInsert acc year entries)
        with ⟨evs2, c2', r'⟩
      simp only [hrec, Prod.mk.injEq] at h
      obtain ⟨rfl, rfl, rfl⟩ := h
      have hc1 : c1 % 2 = 0 := by
        have := processYear_ok_counter hpy
        omega
      obtain ⟨ihev, ihok⟩ := ih hrec hc1
      refine ⟨fun e he => ?_, ihok⟩
      rcases List.mem_append.mp he with hm | hm
      · exact hev0 e hm
      · exact ihev e hm

lemma processSchool_parity {site : Site} {school sid : String} {c : Nat}
    {evs : List PostEvent} {c2 : Nat} {r : Except Err YearDict}
    (h : processSchool site school sid c = (evs, c2, r)) (hc : c % 2 = 0) :
    (∀ e ∈ evs, (e.cat = "hitting" → e.sessionId % 2 = 0) ∧
      (e.cat = "pitching" → e.sessionId % 2 = 1)) ∧
    (∀ d, r = .ok d → c2 % 2 = 0) := by
  simp only [processSchool] at h
  rcases h1 : site.landing (landingUrl sid) with e | yearTags
  · rw [h1] at h
    simp only [Prod.mk.injEq] at h
    obtain ⟨rfl, rfl, rfl⟩ := h
    exact ⟨by simp, fun d hd => absurd hd (by simp)⟩
  · simp only [h1] at h
    rcases h2 : seasonEnum yearTags with e | years
    · rw [h2] at h
      simp only [Prod.mk.injEq] at h
      obtain ⟨rfl, rfl, rfl⟩ := h
      exact ⟨by simp, fun d hd => absurd hd (by simp)⟩
    · simp only [h2] at h
      rcases h3 : processYears site school years c [] with ⟨evs1, c1, r1⟩
      rw [h3] at h
      obtain ⟨hev, hok⟩ := processYears_parity h3 hc
      rcases r1 with e1 | schoolDict
      · simp only [Prod.mk.injEq] at h
        obtain ⟨rfl, rfl, rfl⟩ := h
        exact ⟨hev, fun d hd => absurd hd (by simp)⟩
      · by_cases hempty : schoolDict = []
        · simp only [if_pos hempty, Prod.mk.injEq] at h
          obtain ⟨rfl, rfl, rfl⟩ := h
          exact ⟨hev, fun d hd => absurd hd (by simp)⟩
        · simp only [if_neg hempty, Prod.mk.injEq] at h
          obtain ⟨rfl, rfl, rfl⟩ := h
          exact ⟨hev, fun d _ => hok schoolDict rfl⟩

lemma processSchools_parity {site : Site} :
    ∀ {ids : List (String × String)} {c : Nat} {acc : SchoolDict}
      {evs : List PostEvent} {c2 : Nat} {r : Except Err SchoolDict},
      processSchools site ids c acc = (evs, c2, r) → c % 2 = 0 →
      ∀ e ∈ evs, (e.cat = "hitting" → e.sessionId % 2 = 0) ∧
        (e.cat = "pitching" → e.sessionId % 2 = 1) := by
  intro ids
  induction ids with
  | nil =>
    intro c acc evs c2 r h hc
    simp only [processSchools, Prod.mk.injEq] at h
    obtain ⟨rfl, rfl, rfl⟩ := h
    simp
  | cons hd t ih =>
    obtain ⟨school, sid⟩ := hd
    intro c acc evs c2 r h hc
    simp only [processSchools] at h
    rcases hps : processSchool site school sid c with ⟨evs0, c1, r1⟩
    rw [hps] at h
    obtain ⟨hev0, hok0⟩ := processSchool_parity hps hc
    rcases r1 with e1 | schoolDict
    · simp only [Prod.mk.injEq] at h
      obtain ⟨rfl, rfl, rfl⟩ := h
      exact hev0
    · rcases hrec : processSchools site t c1 (dictInsert acc school schoolDict)
        with ⟨evs2, c2', r'⟩
      simp only [hrec, Prod.mk.injEq] at h
      obtain ⟨rfl, rfl, rfl⟩ := h
      intro e he
      rcases List.mem_append.mp he with hm | hm
      · exact hev0 e hm
      · exact ih hrec (hok0 schoolDict rfl) e hm

lemma stats_events_parity {ids : List (String × String)} {site : Site} :
    ∀ e ∈ (stats ids site).1,
      (e.cat = "hitting" → e.sessionId % 2 = 0) ∧
      (e.cat = "pitching" → e.sessionId % 2 = 1) := by
  intro e he
  rcases hps : processSchools site ids 0 [] with ⟨evs, c1, r⟩
  have hevs : (stats ids site).1 = evs := by
    unfold stats
    rw [hps]
    rcases r with e1 | master
    · rfl
    · by_cases hm : master.isEmpty
      · simp [hm]
      · simp [hm]
  rw [hevs] at he
  exact processSchools_parity hps rfl e he

/-! ## Claim C4 -/

/-- C4: for every run, the fetcher opens a fresh stateful session when
switching category: a pitching POST never reuses the session (cookie jar)
of a hitting POST of the same school and season — their session identifiers
always differ (scraper.py lines 220 and 248 each call `requests.session()`). -/
theorem c4_session_isolation {ids : List (String × String)} {site : Site}
    {e1 e2 : PostEvent}
    (h1 : e1 ∈ (stats ids site).1) (h2 : e2 ∈ (stats ids site).1)
    (hc1 : e1.cat = "hitting") (hc2 : e2.cat = "pitching")
    (_hs : e1.school = e2.school) (_hy : e1.year = e2.year) :
    e1.sessionId ≠ e2.sessionId := by
  have p1 := (stats_events_parity e1 h1).1 hc1
  have p2 := (stats_events_parity e2 h2).2 hc2
  omega

/-- Witness for C4 at a concrete run: the hitting "Overall" POST and the
pitching "Overall" POST of school "Alpha", season "2014-15" use different
sessions. -/
theorem c4_session_isolation_witness :
    (⟨"Alpha", "2014-15", "hitting", 0, "https://stats.ncaa.org/y1", "s0"⟩ : PostEvent)
      ∈ (stats idsOK siteOK).1 ∧
    (⟨"Alpha", "2014-15", "pitching", 1, "https://stats.ncaa.org/p1", "s0"⟩ : PostEvent)
      ∈ (stats idsOK siteOK).1 ∧
    (⟨"Alpha", "2014-15", "hitting", 0, "https://stats.ncaa.org/y1", "s0"⟩ : PostEvent).sessionId ≠
    (⟨"Alpha", "2014-15", "pitching", 1, "https://stats.ncaa.org/p1", "s0"⟩ : PostEvent).sessionId :=
  ⟨by decide, by decide,
    @c4_session_isolation idsOK siteOK
      ⟨"Alpha", "2014-15", "hitting", 0, "https://stats.ncaa.org/y1", "s0"⟩
      ⟨"Alpha", "2014-15", "pitching", 1, "https://stats.ncaa.org/p1", "s0"⟩
      (by decide) (by decide) rfl rfl rfl rfl⟩

lemma processSchool_keyError {site : Site} (school : String) {sid : String}
    {yearTags : List (String × String)}
    (hland : site.landing (landingUrl sid) = .ok yearTags)
    (hmiss : "2010-11" ∉ (yearTags.drop 2).map Prod.fst) (c : Nat) :
    processSchool site school sid c = ([], c, .error (.keyError "2010-11")) := by
  have hse : seasonEnum yearTags = .error (.keyError "2010-11") := by
    unfold seasonEnum
    exact dictPop_error (fun hmem => hmiss (mem_keys_dictOfList.mp hmem))
  simp only [processSchool, hland, hse]

lemma processSchool_noSeasons {site : Site} (school : String) {sid : String}
    {yearTags : List (String × String)}
    (hland : site.landing (landingUrl sid) = .ok yearTags)
    (hse : seasonEnum yearTags = .ok []) (c : Nat) :
    processSchool site school sid c = ([], c, .error .valueError) := by
  simp only [processSchool, hland, hse, processYears]
  simp

lemma processSchools_error_of_school {site : Site} {school sid : String}
    (hfail : ∀ c, ∃ e, (processSchool site school sid c).2.2 = .error e) :
    ∀ {ids : List (String × String)}, (school, sid) ∈ ids →
      ∀ c acc, ∃ e, (processSchools site ids c acc).2.2 = .error e := by
  intro ids
  induction ids with
  | nil =>
    intro hmem
    simp at hmem
  | cons hd t ih =>
    intro hmem c acc
    obtain ⟨s0, i0⟩ := hd
    simp only [processSchools]
    rcases hps : processSchool site s0 i0 c with ⟨evs, c1, r⟩
    rcases r with e | d
    · simp only [hps]
      exact ⟨e, rfl⟩
    · rcases List.mem_cons.mp hmem with heq | hmem2
      · obtain ⟨rfl, rfl⟩ := Prod.mk.injEq .. |>.mp heq
        rcases hfail c with ⟨e, he⟩
        rw [hps] at he
        simp at he
      · simp only [hps]
        rcases ih hmem2 c1 (dictInsert acc s0 d) with ⟨e2, he2⟩
        exact ⟨e2, he2⟩

lemma stats_error_of_processSchools {ids : List (String × String)} {site : Site}
    (h : ∃ e, (processSchools site ids 0 []).2.2 = .error e) :
    ∃ e, (stats ids site).2 = .error e := by
  rcases h with ⟨e, he⟩
  rcases hps : processSchools site ids 0 [] with ⟨evs, c1, r⟩
  rw [hps] at he
  simp only at he
  subst he
  unfold stats
  rw [hps]
  exact ⟨e, rfl⟩

/-! ## Claim C10 -/

/-- C10: for every input school whose stats landing page has no season anchor
labeled "2010-11" among the anchors after the first two, `Ncaa.stats` raises
`KeyError` at the exclusion step (`year_ids.pop('2010-11')`, scraper.py
line 200): processing that school yields exactly that exception with no
requests issued, and the whole run aborts with an exception — no MasterTable
is built or written, and no subsequent school is processed. -/
theorem c10_missing_exclusion_aborts {ids : List (String × String)} {site : Site}
    {school sid : String} {yearTags : List (String × String)}
    (hmem : (school, sid) ∈ ids)
    (hland : site.landing (landingUrl sid) = .ok yearTags)
    (hmiss : "2010-11" ∉ (yearTags.drop 2).map Prod.fst) :
    (∀ c, processSchool site school sid c = ([], c, .error (.keyError "2010-11"))) ∧
    ∃ e, (stats ids site).2 = .error e := by
  have hks := processSchool_keyError school hland hmiss
  exact ⟨hks, stats_error_of_processSchools
    (processSchools_error_of_school
      (fun c => ⟨.keyError "2010-11", by rw [hks c]⟩) hmem 0 [])⟩

/-- Witness for C10 at a concrete run: school "Alpha" has anchors
Home, Teams, 2014-15 and no "2010-11", so the run aborts. -/
theorem c10_missing_exclusion_aborts_witness :
    (∀ c, processSchool siteC10 "Alpha" "1" c = ([], c, .error (.keyError "2010-11"))) ∧
    ∃ e, (stats idsOK siteC10).2 = .error e :=
  @c10_missing_exclusion_aborts idsOK siteC10 "Alpha" "1"
    [("Home", "/h1"), ("Teams", "/h2"), ("2014-15", "/y1")]
    (by decide) (by decide) (by decide)

/-! ## Claim C3 -/

/-- C3 (amended): a school whose discovered season set is empty after the
"2010-11" exclusion does *not* yield an empty result with the run continuing:
`pd.concat(school_dict, ...)` on the empty dict (scraper.py line 284) raises
`ValueError`, and the exception aborts the entire run — no subsequent school
is processed and nothing is aggregated. -/
theorem c3_empty_seasons_abort {ids : List (String × String)} {site : Site}
    {school sid : String} {yearTags : List (String × String)}
    (hmem : (school, sid) ∈ ids)
    (hland : site.landing (landingUrl sid) = .ok yearTags)
    (hse : seasonEnum yearTags = .ok []) :
    (∀ c, processSchool site school sid c = ([], c, .error .valueError)) ∧
    ∃ e, (stats ids site).2 = .error e := by
  have hks := processSchool_noSeasons school hland hse
  exact ⟨hks, stats_error_of_processSchools
    (processSchools_error_of_school
      (fun c => ⟨.valueError, by rw [hks c]⟩) hmem 0 [])⟩

/-- Witness for C3's amended statement at a concrete run: school "Alpha"
(id "1") only has the excluded "2010-11" season. -/
theorem c3_empty_seasons_abort_witness :
    (∀ c, processSchool siteC3 "Alpha" "1" c = ([], c, .error .valueError)) ∧
    ∃ e, (stats [("Alpha", "1"), ("Beta", "2")] siteC3).2 = .error e :=
  @c3_empty_seasons_abort [("Alpha", "1"), ("Beta", "2")] siteC3 "Alpha" "1"
    [("Home", "/h1"), ("Teams", "/h2"), ("2010-11", "/y0")]
    (by decide) (by decide) (by decide)

/-- Counterexample to C3 as stated: on `siteC3`, school "Alpha" has zero
seasons after exclusion while school "Beta" has a complete season of data;
the claim says Alpha yields an empty result and the run continues with Beta,
but the run aborts with `ValueError` before any request — Beta's data is
lost and nothing is returned. -/
theorem c3_counterexample :
    stats [("Alpha", "1"), ("Beta", "2")] siteC3 = ([], .error .valueError) := by
  decide

/-! ## Claim C2 -/

/-- C2 (amended): a failure fetching or parsing a single situational variant's
table is *not* recorded as a gap with processing continuing: scraper.py lines
223-232 have no try/except, so the exception propagates out of the variant
loop and season processing aborts with an error (and with it, by propagation,
the school and the whole run). -/
theorem c2_variant_failure_aborts {site : Site} {school year href : String}
    {c : Nat} {page : SeasonPage} {sel : SelectCtl} {sit val : String} {err : Err}
    (hpage : site.seasonPage (baseUrl ++ href) = .ok page)
    (hsel : page.selects.get? 2 = some sel)
    (hmem : (sit, val) ∈ dictOfList sel.options)
    (hpost : site.postResp c (baseUrl ++ href) val = .error err) :
    ∃ e, (processYear site school year href c).2.2 = .error e :=
  processYear_error_variant hpage hsel hmem hpost

/-- Witness for C2's amended statement: on `siteC2` the POST for the
("Conference", "s1") hitting variant fails, and the 2014-15 season processing
of school "Alpha" ends in an error. -/
theorem c2_variant_failure_aborts_witness :
    ∃ e, (processYear siteC2 "Alpha" "2014-15" "/y1" 0).2.2 = .error e :=
  @c2_variant_failure_aborts siteC2 "Alpha" "2014-15" "/y1" 0
    ⟨[⟨[]⟩, ⟨[]⟩, ⟨[("Overall", "s0"), ("Conference", "s1")]⟩],
     [("Pitching", "/p1"), ("Fielding", "/f1")]⟩
    ⟨[("Overall", "s0"), ("Conference", "s1")]⟩
    "Conference" "s1" .netError
    (by decide) (by decide) (by decide) (by decide)

/-- Counterexample to C2 as stated: on `siteC2` only the ("Conference", "s1")
hitting POST fails; the claim says the missing table is recorded as a gap and
all other variants' rows still appear in the MasterTable, but the run issues
the two hitting POSTs and then aborts with the network error — no MasterTable
exists, so the (hitting, Overall), (pitching, Overall) and (fielding,
Fielding) tables all disappear with it. -/
theorem c2_counterexample :
    stats idsOK siteC2 =
      ([⟨"Alpha", "2014-15", "hitting", 0, "https://stats.ncaa.org/y1", "s0"⟩,
        ⟨"Alpha", "2014-15", "hitting", 0, "https://stats.ncaa.org/y1", "s1"⟩],
       .error .netError) := by
  decide

/-! ## Claim C6 -/

/-- C6 (amended): season enumeration skips exactly the first two
season-navigation anchors and removes the excluded label "2010-11", returning
an ordered duplicate-free mapping from season label to navigation token drawn
from the remaining anchors — *provided* "2010-11" is among the post-skip
anchor labels; when it is not, `year_ids.pop('2010-11')` raises `KeyError`
instead of returning a mapping. -/
theorem c6_season_enumeration {yearTags : List (String × String)}
    (hmem : "2010-11" ∈ (yearTags.drop 2).map Prod.fst) :
    ∃ m, seasonEnum yearTags = .ok m ∧
      (m.map Prod.fst).Nodup ∧
      (∀ p ∈ m, p ∈ yearTags.drop 2) ∧
      "2010-11" ∉ m.map Prod.fst ∧
      ∀ lab ∈ (yearTags.drop 2).map Prod.fst, lab ≠ "2010-11" →
        lab ∈ m.map Prod.fst := by
  have hkey : "2010-11" ∈ (dictOfList (yearTags.drop 2)).map Prod.fst :=
    mem_keys_dictOfList.mpr hmem
  rcases List.mem_map.mp hkey with ⟨q, hq, hqe⟩
  have hany : (dictOfList (yearTags.drop 2)).any (fun p => p.1 == "2010-11") :=
    List.any_eq_true.mpr ⟨q, hq, by simp [hqe]⟩
  refine ⟨(dictOfList (yearTags.drop 2)).filter (fun p => !(p.1 == "2010-11")),
    ?_, ?_, ?_, ?_, ?_⟩
  · unfold seasonEnum dictPop
    rw [if_pos hany]
  · have hsub : List.Sublist
        (((dictOfList (yearTags.drop 2)).filter
          (fun p => !(p.1 == "2010-11"))).map Prod.fst)
        ((dictOfList (yearTags.drop 2)).map Prod.fst) :=
      List.Sublist.map Prod.fst (List.filter_sublist _)
    exact (nodup_keys_dictOfList _).sublist hsub
  · intro p hp
    exact mem_dictOfList (List.mem_of_mem_filter hp)
  · intro hbad
    rcases List.mem_map.mp hbad with ⟨p, hp, hpe⟩
    have := (List.mem_filter.mp hp).2
    rw [hpe] at this
    simp at this
  · intro lab hlab hne
    have hlabd : lab ∈ (dictOfList (yearTags.drop 2)).map Prod.fst :=
      mem_keys_dictOfList.mpr hlab
    rcases List.mem_map.mp hlabd with ⟨p, hp, hpe⟩
    refine List.mem_map.mpr ⟨p, List.mem_filter.mpr ⟨hp, ?_⟩, hpe⟩
    subst hpe
    simpa using hne

/-- Witness for C6's amended statement at a concrete anchor list containing
the excluded season. -/
theorem c6_season_enumeration_witness :
    ∃ m, seasonEnum [("Home", "/h1"), ("Teams", "/h2"), ("2010-11", "/y0"),
        ("2014-15", "/y1")] = .ok m ∧
      (m.map Prod.fst).Nodup ∧
      (∀ p ∈ m, p ∈ [("Home", "/h1"), ("Teams", "/h2"), ("2010-11", "/y0"),
        ("2014-15", "/y1")].drop 2) ∧
      "2010-11" ∉ m.map Prod.fst ∧
      ∀ lab ∈ ([("Home", "/h1"), ("Teams", "/h2"), ("2010-11", "/y0"),
        ("2014-15", "/y1")].drop 2).map Prod.fst, lab ≠ "2010-11" →
        lab ∈ m.map Prod.fst :=
  c6_season_enumeration (by decide)

/-- Counterexample to C6 as stated: on a landing page whose post-skip anchors
have no "2010-11" label, season enumeration does not return the ordered
mapping of remaining anchors — it raises `KeyError`. -/
theorem c6_counterexample :
    seasonEnum [("Home", "/h1"), ("Teams", "/h2"), ("2014-15", "/y1")] =
      .error (.keyError "2010-11") := by
  decide

lemma filter_entries_cat (hits pits : List (String × StatTable)) (ft : StatTable) :
    ((hits.map (fun p => ("hitting", p.1, p.2)) ++
      pits.map (fun p => ("pitching", p.1, p.2)) ++
      [("fielding", "Fielding", ft)]).filter
        (fun ce : CatEntry => ce.1 == "hitting")) =
      hits.map (fun p => ("hitting", p.1, p.2)) ∧
    ((hits.map (fun p => ("hitting", p.1, p.2)) ++
      pits.map (fun p => ("pitching", p.1, p.2)) ++
      [("fielding", "Fielding", ft)]).filter
        (fun ce : CatEntry => ce.1 == "fielding")) =
      [("fielding", "Fielding", ft)] := by
  have hh : ∀ p : String × StatTable,
      ((fun ce : CatEntry => ce.1 == "hitting") ("hitting", p.1, p.2)) = true := by
    intro p; rfl
  have hph : ∀ p : String × StatTable,
      ((fun ce : CatEntry => ce.1 == "hitting") ("pitching", p.1, p.2)) = false := by
    intro p; rfl
  have hf : ∀ p : String × StatTable,
      ((fun ce : CatEntry => ce.1 == "fielding") ("hitting", p.1, p.2)) = false := by
    intro p; rfl
  have hpf : ∀ p : String × StatTable,
      ((fun ce : CatEntry => ce.1 == "fielding") ("pitching", p.1, p.2)) = false := by
    intro p; rfl
  constructor
  · rw [List.filter_append, List.filter_append]
    rw [List.filter_eq_self.mpr, List.filter_eq_nil_iff.mpr, List.filter_eq_nil_iff.mpr]
    · simp
    · intro ce hce
      simp only [List.mem_singleton] at hce
      subst hce
      simp
    · intro ce hce
      rcases List.mem_map.mp hce with ⟨p, _, hpe⟩
      subst hpe
      simp [hph p]
    · intro ce hce
      rcases List.mem_map.mp hce with ⟨p, _, hpe⟩
      subst hpe
      simp [hh p]
  · rw [List.filter_append, List.filter_append]
    rw [List.filter_eq_nil_iff.mpr, List.filter_eq_nil_iff.mpr,
      List.filter_eq_self.mpr]
    · simp
    · intro ce hce
      simp only [List.mem_singleton] at hce
      subst hce
      rfl
    · intro ce hce
      rcases List.mem_map.mp hce with ⟨p, _, hpe⟩
      subst hpe
      simp [hpf p]
    · intro ce hce
      rcases List.mem_map.mp hce with ⟨p, _, hpe⟩
      subst hpe
      simp [hf p]

/-! ## Claim C7 -/

/-- C7: for every successfully processed (school, season), the fielding
category has no variant selector: its page (the second
`year_stat_category_id` anchor of the base page) is fetched once by GET, its
third table is parsed, and exactly one StatTable tagged with the implicit
situational label "Fielding" enters the season's entries
(scraper.py lines 261-269). -/
theorem c7_fielding_single_table {site : Site} {school year href : String}
    {c : Nat} {evs : List PostEvent} {c2 : Nat} {entries : List CatEntry}
    (h : processYear site school year href c = (evs, c2, .ok entries)) :
    ∃ t, entries.filter (fun ce => ce.1 == "fielding") =
        [("fielding", "Fielding", t)] ∧
      ∃ page fA ftables, site.seasonPage (baseUrl ++ href) = .ok page ∧
        page.catAnchors.get? 1 = some fA ∧
        site.getResp (baseUrl ++ fA.2) = .ok ftables ∧
        ftables.get? 2 = some t := by
  obtain ⟨page, sel, evs1, hits, pA, ppage, psel, evs2, pits, fA, ftables, ft,
    hA, hB, hC, hD, hE, hF, hG, hH, hI, hJ, hK, hL, hM, hN, hO⟩ :=
    processYear_ok h
  subst hO
  exact ⟨ft, (filter_entries_cat hits pits ft).2,
    page, fA, ftables, hA, hH, hI, hJ⟩

/-- Witness for C7 at a concrete season: the 2014-15 season of school "Alpha"
on `siteOK` yields exactly one fielding entry, labeled "Fielding". -/
theorem c7_fielding_single_table_witness :
    ∃ t, ([("hitting", "Overall", tblOf "s0"),
           ("hitting", "Conference", tblOf "s1"),
           ("pitching", "Overall", tblOf "s0"),
           ("fielding", "Fielding", fieldTable)] : List CatEntry).filter
        (fun ce => ce.1 == "fielding") = [("fielding", "Fielding", t)] ∧
      ∃ page fA ftables, siteOK.seasonPage (baseUrl ++ "/y1") = .ok page ∧
        page.catAnchors.get? 1 = some fA ∧
        siteOK.getResp (baseUrl ++ fA.2) = .ok ftables ∧
        ftables.get? 2 = some t :=
  @c7_fielding_single_table siteOK "Alpha" "2014-15" "/y1" 0
    [⟨"Alpha", "2014-15", "hitting", 0, "https://stats.ncaa.org/y1", "s0"⟩,
     ⟨"Alpha", "2014-15", "hitting", 0, "https://stats.ncaa.org/y1", "s1"⟩,
     ⟨"Alpha", "2014-15", "pitching", 1, "https://stats.ncaa.org/p1", "s0"⟩]
    2
    [("hitting", "Overall", tblOf "s0"), ("hitting", "Conference", tblOf "s1"),
     ("pitching", "Overall", tblOf "s0"), ("fielding", "Fielding", fieldTable)]
    (by decide)

/-! ## Claim C5 -/

/-- C5: for every successfully processed season base page, the set of
situational variants is exactly the (label → selector-value) dict built from
the options of the third `select` control of the page, and every variant's
StatTable is the third table of the response to the form POST carrying that
variant's selector value (scraper.py lines 215-218 and 226-232). -/
theorem c5_positional_parsing {site : Site} {school year href : String}
    {c : Nat} {evs : List PostEvent} {c2 : Nat} {entries : List CatEntry}
    (h : processYear site school year href c = (evs, c2, .ok entries)) :
    ∃ page sel, site.seasonPage (baseUrl ++ href) = .ok page ∧
      page.selects.get? 2 = some sel ∧
      (entries.filter (fun ce => ce.1 == "hitting")).map (fun ce => ce.2.1) =
        (dictOfList sel.options).map Prod.fst ∧
      ∀ ce ∈ entries, ce.1 = "hitting" →
        ∃ val tables, (ce.2.1, val) ∈ dictOfList sel.options ∧
          site.postResp c (baseUrl ++ href) val = .ok tables ∧
          tables.get? 2 = some ce.2.2 := by
  obtain ⟨page, sel, evs1, hits, pA, ppage, psel, evs2, pits, fA, ftables, ft,
    hA, hB, hC, hD, hE, hF, hG, hH, hI, hJ, hK, hL, hM, hN, hO⟩ :=
    processYear_ok h
  obtain ⟨hkeys, hmem⟩ := fetchVariants_ok hC
  subst hO
  refine ⟨page, sel, hA, hB, ?_, ?_⟩
  · rw [(filter_entries_cat hits pits ft).1, List.map_map]
    have hcomp : ((fun ce : CatEntry => ce.2.1) ∘
        (fun p : String × StatTable => ("hitting", p.1, p.2))) = Prod.fst := rfl
    rw [hcomp, hkeys]
  · intro ce hce hcat
    rcases List.mem_append.mp hce with hhp | hlast
    · rcases List.mem_append.mp hhp with hh | hp
      · obtain ⟨p, hp0, rfl⟩ := List.mem_map.mp hh
        obtain ⟨val, tables, hv, hpost, hget⟩ := hmem p hp0
        exact ⟨val, tables, hv, hpost, hget⟩
      · obtain ⟨p, hp2, rfl⟩ := List.mem_map.mp hp
        exact absurd hcat (by simp)
    · simp only [List.mem_singleton] at hlast
      subst hlast
      exact absurd hcat (by simp)

/-- Witness for C5 at a concrete season: the 2014-15 hitting variants of
school "Alpha" on `siteOK` come from the third select's options and each
hitting table is the third table of its POST response. -/
theorem c5_positional_parsing_witness :
    ∃ page sel, siteOK.seasonPage (baseUrl ++ "/y1") = .ok page ∧
      page.selects.get? 2 = some sel ∧
      (([("hitting", "Overall", tblOf "s0"),
         ("hitting", "Conference", tblOf "s1"),
         ("pitching", "Overall", tblOf "s0"),
         ("fielding", "Fielding", fieldTable)] : List CatEntry).filter
          (fun ce => ce.1 == "hitting")).map (fun ce => ce.2.1) =
        (dictOfList sel.options).map Prod.fst ∧
      ∀ ce ∈ ([("hitting", "Overall", tblOf "s0"),
         ("hitting", "Conference", tblOf "s1"),
         ("pitching", "Overall", tblOf "s0"),
         ("fielding", "Fielding", fieldTable)] : List CatEntry),
        ce.1 = "hitting" →
        ∃ val tables, (ce.2.1, val) ∈ dictOfList sel.options ∧
          siteOK.postResp 0 (baseUrl ++ "/y1") val = .ok tables ∧
          tables.get? 2 = some ce.2.2 :=
  @c5_positional_parsing siteOK "Alpha" "2014-15" "/y1" 0
    [⟨"Alpha", "2014-15", "hitting", 0, "https://stats.ncaa.org/y1", "s0"⟩,
     ⟨"Alpha", "2014-15", "hitting", 0, "https://stats.ncaa.org/y1", "s1"⟩,
     ⟨"Alpha", "2014-15", "pitching", 1, "https://stats.ncaa.org/p1", "s0"⟩]
    2
    [("hitting", "Overall", tblOf "s0"), ("hitting", "Conference", tblOf "s1"),
     ("pitching", "Overall", tblOf "s0"), ("fielding", "Fielding", fieldTable)]
    (by decide)

/-! ## Lemmas about the final frame -/

lemma stats_ok_inv {ids : List (String × String)} {site : Site}
    {evs : List PostEvent} {m : MasterTable}
    (h : stats ids site = (evs, .ok m)) :
    ∃ master c1, processSchools site ids 0 [] = (evs, c1, .ok master) ∧
      master ≠ [] ∧
      m = ⟨["school", "year", "stat", "situation", "num"],
           masterEntries master⟩ := by
  unfold stats at h
  rcases hps : processSchools site ids 0 [] with ⟨evs0, c1, r⟩
  rw [hps] at h
  rcases r with e | master
  · simp at h
  · by_cases hm : master.isEmpty
    · simp [hm] at h
    · simp [hm] at h
      obtain ⟨rfl, hm2⟩ := h
      refine ⟨master, c1, rfl, ?_, hm2.symm⟩
      intro hnil
      subst hnil
      simp at hm

lemma get?_mem_enumFrom {α : Type} :
    ∀ (l : List α) (k n : Nat) (x : α), l.get? n = some x →
      (k + n, x) ∈ l.enumFrom k := by
  intro l
  induction l with
  | nil =>
    intro k n x h
    simp at h
  | cons a t ih =>
    intro k n x h
    cases n with
    | zero =>
      simp only [List.get?] at h
      injection h with h
      subst h
      simp [List.enumFrom]
    | succ n0 =>
      simp only [List.get?] at h
      have hmem := ih (k + 1) n0 x h
      have heq : k + (n0 + 1) = (k + 1) + n0 := by omega
      rw [heq]
      exact List.mem_cons_of_mem _ hmem

lemma get?_mem_enum {α : Type} (l : List α) (n : Nat) (x : α)
    (h : l.get? n = some x) : (n, x) ∈ l.enum := by
  have hmem := get?_mem_enumFrom l 0 n x h
  simpa [List.enum] using hmem

lemma mem_rows_of_entry {m : MasterTable} {pt : LabelPath × StatTable}
    (hpt : pt ∈ m.entries) {n : Nat} {row : List String}
    (hrow : pt.2.rows.get? n = some row) :
    (⟨pt.1.1, pt.1.2.1, pt.1.2.2.1, pt.1.2.2.2, n, pt.2.columns, row⟩ :
      MasterRow) ∈ m.rows := by
  unfold MasterTable.rows
  refine List.mem_flatMap.mpr ⟨pt, hpt, ?_⟩
  exact List.mem_map.mpr ⟨(n, row), get?_mem_enum _ _ _ hrow, rfl⟩

/-! ## Claim C8 -/

/-- C8: the output artifact of every completed run is a single frame whose
label levels are exactly school, year, stat, situation and the within-table
row ordinal `num` (set at scraper.py line 289, and *kept*: line 290 calls
`droplevel('num')` but discards the result), and whose data cells are each
source table's rows under that table's own category-specific columns, tagged
with the source path and ordinal. -/
theorem c8_output_artifact {ids : List (String × String)} {site : Site}
    {evs : List PostEvent} {m : MasterTable}
    (h : stats ids site = (evs, .ok m)) :
    m.indexNames = ["school", "year", "stat", "situation", "num"] ∧
    ∀ pt ∈ m.entries, ∀ n row, pt.2.rows.get? n = some row →
      (⟨pt.1.1, pt.1.2.1, pt.1.2.2.1, pt.1.2.2.2, n, pt.2.columns, row⟩ :
        MasterRow) ∈ m.rows := by
  obtain ⟨master, c1, hps, hne, rfl⟩ := stats_ok_inv h
  exact ⟨rfl, fun pt hpt n row hrow => mem_rows_of_entry hpt hrow⟩

/-- Witness for C8 at a concrete completed run on `siteOK`. -/
theorem c8_output_artifact_witness :
    (MasterTable.mk ["school", "year", "stat", "situation", "num"]
        [(("Alpha", "2014-15", "hitting", "Overall"), tblOf "s0"),
         (("Alpha", "2014-15", "hitting", "Conference"), tblOf "s1"),
         (("Alpha", "2014-15", "pitching", "Overall"), tblOf "s0"),
         (("Alpha", "2014-15", "fielding", "Fielding"), fieldTable)]).indexNames =
      ["school", "year", "stat", "situation", "num"] ∧
    ∀ pt, pt ∈ (MasterTable.mk ["school", "year", "stat", "situation", "num"]
        [(("Alpha", "2014-15", "hitting", "Overall"), tblOf "s0"),
         (("Alpha", "2014-15", "hitting", "Conference"), tblOf "s1"),
         (("Alpha", "2014-15", "pitching", "Overall"), tblOf "s0"),
         (("Alpha", "2014-15", "fielding", "Fielding"), fieldTable)]).entries →
      ∀ n row, pt.2.rows.get? n = some row →
      (⟨pt.1.1, pt.1.2.1, pt.1.2.2.1, pt.1.2.2.2, n, pt.2.columns, row⟩ :
        MasterRow) ∈ (MasterTable.mk
          ["school", "year", "stat", "situation", "num"]
          [(("Alpha", "2014-15", "hitting", "Overall"), tblOf "s0"),
           (("Alpha", "2014-15", "hitting", "Conference"), tblOf "s1"),
           (("Alpha", "2014-15", "pitching", "Overall"), tblOf "s0"),
           (("Alpha", "2014-15", "fielding", "Fielding"), fieldTable)]).rows := by
  have h := @c8_output_artifact idsOK siteOK
    [⟨"Alpha", "2014-15", "hitting", 0, "https://stats.ncaa.org/y1", "s0"⟩,
     ⟨"Alpha", "2014-15", "hitting", 0, "https://stats.ncaa.org/y1", "s1"⟩,
     ⟨"Alpha", "2014-15", "pitching", 1, "https://stats.ncaa.org/p1", "s0"⟩]
    (MasterTable.mk ["school", "year", "stat", "situation", "num"]
      [(("Alpha", "2014-15", "hitting", "Overall"), tblOf "s0"),
       (("Alpha", "2014-15", "hitting", "Conference"), tblOf "s1"),
       (("Alpha", "2014-15", "pitching", "Overall"), tblOf "s0"),
       (("Alpha", "2014-15", "fielding", "Fielding"), fieldTable)])
    (by decide)
  exact ⟨h.1, fun pt hpt => h.2 pt hpt⟩

/-! ## Lemmas about splitting and re-aggregating along a label boundary -/

lemma firstKeys_cons (k : String) (t : List String) :
    firstKeys (k :: t) = k :: firstKeys (t.filter fun x => !(x == k)) := by
  rw [firstKeys]

lemma mem_firstKeys {l : List String} : ∀ {x : String}, x ∈ firstKeys l ↔ x ∈ l := by
  induction l using firstKeys.induct with
  | case1 =>
    intro x
    rw [firstKeys]
  | case2 k t ih =>
    intro x
    rw [firstKeys_cons]
    simp only [List.mem_cons, ih, List.mem_filter]
    by_cases hxk : x = k
    · simp [hxk]
    · simp [hxk]

lemma firstKeys_nodup : ∀ (l : List String), (firstKeys l).Nodup := by
  intro l
  induction l using firstKeys.induct with
  | case1 =>
    rw [firstKeys]
    exact List.nodup_nil
  | case2 k t ih =>
    rw [firstKeys_cons]
    refine List.nodup_cons.mpr ⟨?_, ih⟩
    intro hmem
    have h2 := (List.mem_filter.mp (mem_firstKeys.mp hmem)).2
    simp at h2

lemma filter_flatMap {α β : Type} (l : List α) (g : α → List β) (p : β → Bool) :
    (l.flatMap g).filter p = l.flatMap (fun a => (g a).filter p) := by
  induction l with
  | nil => rfl
  | cons a t ih => simp [List.flatMap_cons, List.filter_append, ih]

lemma flatMap_map_snd {β γ : Type} (ks : List β) (F : β → List γ) :
    ((ks.map fun k => (k, F k)).flatMap fun p => p.2) = ks.flatMap F := by
  induction ks with
  | nil => rfl
  | cons a t ih => simp [ih]

lemma mergeBy_splitBy {α : Type} (f : α → String) (l : List α) :
    mergeBy (splitBy f l) =
      (firstKeys (l.map f)).flatMap (fun j => l.filter fun a => f a == j) := by
  unfold mergeBy splitBy
  exact flatMap_map_snd _ _

lemma filter_filter_self {α : Type} (l : List α) (p : α → Bool) :
    (l.filter p).filter p = l.filter p :=
  List.filter_eq_self.mpr (fun _ ha => (List.mem_filter.mp ha).2)

lemma filter_key_disjoint {α : Type} (l : List α) (f : α → String) {j k : String}
    (hjk : j ≠ k) :
    (l.filter fun a => f a == j).filter (fun a => f a == k) = [] := by
  refine List.filter_eq_nil_iff.mpr (fun a ha => ?_)
  have h1 := (List.mem_filter.mp ha).2
  intro h2
  exact hjk (by rw [← eq_of_beq h1, eq_of_beq h2])

lemma flatMap_filter_single {α : Type} (f : α → String) (l : List α) (k : String) :
    ∀ (ks : List String), ks.Nodup → k ∈ ks →
      (ks.flatMap fun j =>
        (l.filter fun a => f a == j).filter fun a => f a == k) =
      l.filter (fun a => f a == k) := by
  intro ks
  induction ks with
  | nil =>
    intro _ h
    simp at h
  | cons j t ih =>
    intro hnd hmem
    simp only [List.flatMap_cons]
    rcases List.mem_cons.mp hmem with heq | hmem2
    · subst heq
      rw [filter_filter_self]
      have hknt : k ∉ t := (List.nodup_cons.mp hnd).1
      have hrest : (t.flatMap fun j2 =>
          (l.filter fun a => f a == j2).filter fun a => f a == k) = [] := by
        refine List.flatMap_eq_nil_iff.mpr (fun j2 hj2 => ?_)
        exact filter_key_disjoint l f (fun hj2k => hknt (hj2k ▸ hj2))
      rw [hrest, List.append_nil]
    · have hjk : j ≠ k := fun heq => (List.nodup_cons.mp hnd).1 (heq ▸ hmem2)
      rw [filter_key_disjoint l f hjk, List.nil_append,
        ih (List.nodup_cons.mp hnd).2 hmem2]

lemma firstKeys_flatMap_blocks :
    ∀ (ks : List String) (blocks : String → List String),
      ks.Nodup → (∀ j ∈ ks, blocks j ≠ [] ∧ ∀ x ∈ blocks j, x = j) →
      firstKeys (ks.flatMap blocks) = ks := by
  intro ks
  induction ks with
  | nil =>
    intro blocks _ _
    simp [firstKeys]
  | cons j t ih =>
    intro blocks hnd hb
    obtain ⟨hne, hall⟩ := hb j (List.mem_cons_self _ _)
    rcases hblk : blocks j with _ | ⟨y, ys⟩
    · exact absurd hblk hne
    · simp only [List.flatMap_cons, hblk]
      have hyj : y = j := hall y (by rw [hblk]; exact List.mem_cons_self _ _)
      subst hyj
      rw [List.cons_append, firstKeys_cons]
      congr 1
      have h1 : ys.filter (fun x => !(x == y)) = [] := by
        refine List.filter_eq_nil_iff.mpr (fun x hx => ?_)
        have hxy : x = y := hall x (by rw [hblk]; exact List.mem_cons_of_mem _ hx)
        subst hxy
        simp
      have h2 : (t.flatMap blocks).filter (fun x => !(x == y)) = t.flatMap blocks := by
        refine List.filter_eq_self.mpr (fun x hx => ?_)
        rcases List.mem_flatMap.mp hx with ⟨j2, hj2, hxj2⟩
        have hxeq : x = j2 := (hb j2 (List.mem_cons_of_mem _ hj2)).2 x hxj2
        subst hxeq
        have hne2 : x ≠ y := fun heq => (List.nodup_cons.mp hnd).1 (heq ▸ hj2)
        simpa using hne2
      rw [List.filter_append, h1, h2, List.nil_append]
      exact ih blocks (List.nodup_cons.mp hnd).2
        (fun j2 hj2 => hb j2 (List.mem_cons_of_mem _ hj2))

lemma mergeBy_splitBy_filter {α : Type} (f : α → String) (l : List α) {k : String}
    (hk : k ∈ firstKeys (l.map f)) :
    (mergeBy (splitBy f l)).filter (fun a => f a == k) =
      l.filter (fun a => f a == k) := by
  rw [mergeBy_splitBy, filter_flatMap]
  exact flatMap_filter_single f l k _ (firstKeys_nodup _) hk

lemma splitBy_mergeBy_splitBy {α : Type} (f : α → String) (l : List α) :
    splitBy f (mergeBy (splitBy f l)) = splitBy f l := by
  have hkeys : firstKeys ((mergeBy (splitBy f l)).map f) = firstKeys (l.map f) := by
    rw [mergeBy_splitBy, List.map_flatMap]
    refine firstKeys_flatMap_blocks (firstKeys (l.map f))
      (fun j => (l.filter fun a => f a == j).map f) (firstKeys_nodup _)
      (fun j hj => ⟨?_, ?_⟩)
    · rcases List.mem_map.mp (mem_firstKeys.mp hj) with ⟨a, ha, hfa⟩
      have hmem : a ∈ l.filter fun a => f a == j :=
        List.mem_filter.mpr ⟨ha, by simp [hfa]⟩
      exact List.ne_nil_of_mem (List.mem_map.mpr ⟨a, hmem, hfa⟩)
    · intro x hx
      rcases List.mem_map.mp hx with ⟨a, ha, rfl⟩
      exact eq_of_beq (List.mem_filter.mp ha).2
  show (firstKeys ((mergeBy (splitBy f l)).map f)).map
      (fun k => (k, (mergeBy (splitBy f l)).filter fun a => f a == k)) =
    splitBy f l
  rw [hkeys]
  unfold splitBy
  refine List.map_congr_left (fun k hk => ?_)
  have hfk := mergeBy_splitBy_filter f l hk
  exact congrArg (fun v => (k, v)) hfk

/-! ## Claim C9 -/

/-- C9: for every already-built MasterTable (the frame of a completed run) and
every label boundary (school, year, stat or situation), splitting the rows
along that boundary and re-aggregating the pieces by concatenation — rows keep
their label-path tags — reproduces the original pieces when re-split along the
same boundary: the label-path tagging round-trips. -/
theorem c9_label_roundtrip {ids : List (String × String)} {site : Site}
    {evs : List PostEvent} {m : MasterTable}
    (_h : stats ids site = (evs, .ok m)) :
    splitBy MasterRow.school (mergeBy (splitBy MasterRow.school m.rows)) =
      splitBy MasterRow.school m.rows ∧
    splitBy MasterRow.year (mergeBy (splitBy MasterRow.year m.rows)) =
      splitBy MasterRow.year m.rows ∧
    splitBy MasterRow.stat (mergeBy (splitBy MasterRow.stat m.rows)) =
      splitBy MasterRow.stat m.rows ∧
    splitBy MasterRow.situation (mergeBy (splitBy MasterRow.situation m.rows)) =
      splitBy MasterRow.situation m.rows :=
  ⟨splitBy_mergeBy_splitBy _ _, splitBy_mergeBy_splitBy _ _,
   splitBy_mergeBy_splitBy _ _, splitBy_mergeBy_splitBy _ _⟩

/-- Witness for C9 at the MasterTable of the concrete completed run on
`siteOK`. -/
theorem c9_label_roundtrip_witness :
    splitBy MasterRow.school (mergeBy (splitBy MasterRow.school
      (MasterTable.mk ["school", "year", "stat", "situation", "num"]
        [(("Alpha", "2014-15", "hitting", "Overall"), tblOf "s0"),
         (("Alpha", "2014-15", "hitting", "Conference"), tblOf "s1"),
         (("Alpha", "2014-15", "pitching", "Overall"), tblOf "s0"),
         (("Alpha", "2014-15", "fielding", "Fielding"), fieldTable)]).rows)) =
      splitBy MasterRow.school
        (MasterTable.mk ["school", "year", "stat", "situation", "num"]
          [(("Alpha", "2014-15", "hitting", "Overall"), tblOf "s0"),
           (("Alpha", "2014-15", "hitting", "Conference"), tblOf "s1"),
           (("Alpha", "2014-15", "pitching", "Overall"), tblOf "s0"),
           (("Alpha", "2014-15", "fielding", "Fielding"), fieldTable)]).rows ∧
    splitBy MasterRow.year (mergeBy (splitBy MasterRow.year
      (MasterTable.mk ["school", "year", "stat", "situation", "num"]
        [(("Alpha", "2014-15", "hitting", "Overall"), tblOf "s0"),
         (("Alpha", "2014-15", "hitting", "Conference"), tblOf "s1"),
         (("Alpha", "2014-15", "pitching", "Overall"), tblOf "s0"),
         (("Alpha", "2014-15", "fielding", "Fielding"), fieldTable)]).rows)) =
      splitBy MasterRow.year
        (MasterTable.mk ["school", "year", "stat", "situation", "num"]
          [(("Alpha", "2014-15", "hitting", "Overall"), tblOf "s0"),
           (("Alpha", "2014-15", "hitting", "Conference"), tblOf "s1"),
           (("Alpha", "2014-15", "pitching", "Overall"), tblOf "s0"),
           (("Alpha", "2014-15", "fielding", "Fielding"), fieldTable)]).rows ∧
    splitBy MasterRow.stat (mergeBy (splitBy MasterRow.stat
      (MasterTable.mk ["school", "year", "stat", "situation", "num"]
        [(("Alpha", "2014-15", "hitting", "Overall"), tblOf "s0"),
         (("Alpha", "2014-15", "hitting", "Conference"), tblOf "s1"),
         (("Alpha", "2014-15", "pitching", "Overall"), tblOf "s0"),
         (("Alpha", "2014-15", "fielding", "Fielding"), fieldTable)]).rows)) =
      splitBy MasterRow.stat
        (MasterTable.mk ["school", "year", "stat", "situation", "num"]
          [(("Alpha", "2014-15", "hitting", "Overall"), tblOf "s0"),
           (("Alpha", "2014-15", "hitting", "Conference"), tblOf "s1"),
           (("Alpha", "2014-15", "pitching", "Overall"), tblOf "s0"),
           (("Alpha", "2014-15", "fielding", "Fielding"), fieldTable)]).rows ∧
    splitBy MasterRow.situation (mergeBy (splitBy MasterRow.situation
      (MasterTable.mk ["school", "year", "stat", "situation", "num"]
        [(("Alpha", "2014-15", "hitting", "Overall"), tblOf "s0"),
         (("Alpha", "2014-15", "hitting", "Conference"), tblOf "s1"),
         (("Alpha", "2014-15", "pitching", "Overall"), tblOf "s0"),
         (("Alpha", "2014-15", "fielding", "Fielding"), fieldTable)]).rows)) =
      splitBy MasterRow.situation
        (MasterTable.mk ["school", "year", "stat", "situation", "num"]
          [(("Alpha", "2014-15", "hitting", "Overall"), tblOf "s0"),
           (("Alpha", "2014-15", "hitting", "Conference"), tblOf "s1"),
           (("Alpha", "2014-15", "pitching", "Overall"), tblOf "s0"),
           (("Alpha", "2014-15", "fielding", "Fielding"), fieldTable)]).rows :=
  @c9_label_roundtrip idsOK siteOK
    [⟨"Alpha", "2014-15", "hitting", 0, "https://stats.ncaa.org/y1", "s0"⟩,
     ⟨"Alpha", "2014-15", "hitting", 0, "https://stats.ncaa.org/y1", "s1"⟩,
     ⟨"Alpha", "2014-15", "pitching", 1, "https://stats.ncaa.org/p1", "s0"⟩]
    (MasterTable.mk ["school", "year", "stat", "situation", "num"]
      [(("Alpha", "2014-15", "hitting", "Overall"), tblOf "s0"),
       (("Alpha", "2014-15", "hitting", "Conference"), tblOf "s1"),
       (("Alpha", "2014-15", "pitching", "Overall"), tblOf "s0"),
       (("Alpha", "2014-15", "fielding", "Fielding"), fieldTable)])
    (by decide)

/-! ## Lemmas for the path composite key (claim C1) -/

lemma mem_of_get? {α : Type} : ∀ {l : List α} {n : Nat} {x : α},
    l.get? n = some x → x ∈ l := by
  intro l
  induction l with
  | nil =>
    intro n x h
    simp at h
  | cons a t ih =>
    intro n x h
    cases n with
    | zero =>
      simp only [List.get?] at h
      injection h with h
      exact h ▸ List.mem_cons_self _ _
    | succ n0 =>
      simp only [List.get?] at h
      exact List.mem_cons_of_mem _ (ih h)

lemma mem_of_mem_drop {α : Type} {l : List α} {n : Nat} {x : α}
    (h : x ∈ l.drop n) : x ∈ l :=
  (List.drop_sublist n l).subset h

lemma nodup_tag_flatMap {α β : Type} (d : List (String × α)) (f : α → List β)
    (hk : (d.map Prod.fst).Nodup) (hin : ∀ p ∈ d, (f p.2).Nodup) :
    (d.flatMap fun p => (f p.2).map fun b => (p.1, b)).Nodup := by
  induction d with
  | nil => simp
  | cons hd t ih =>
    obtain ⟨k, v⟩ := hd
    have hk2 : (k :: t.map Prod.fst).Nodup := by simpa using hk
    obtain ⟨hknot, hktail⟩ := List.nodup_cons.mp hk2
    simp only [List.flatMap_cons]
    refine List.Nodup.append ?_
      (ih hktail (fun p hp => hin p (List.mem_cons_of_mem _ hp))) ?_
    · have heq : ((f v).map fun b => (k, b)) = ((f v).map (Prod.mk k)) := rfl
      rw [heq]
      refine List.Nodup.map ?_ (hin (k, v) (List.mem_cons_self _ _))
      intro b1 b2 hb
      exact (Prod.mk.injEq .. |>.mp hb).2
    · intro x hx1 hx2
      rcases List.mem_map.mp hx1 with ⟨b, hb, rfl⟩
      rcases List.mem_flatMap.mp hx2 with ⟨p, hp, hxp⟩
      rcases List.mem_map.mp hxp with ⟨b2, hb2, heq⟩
      exact hknot (List.mem_map.mpr ⟨p, hp, (Prod.mk.injEq .. |>.mp heq).1⟩)

lemma masterEntries_paths (m : SchoolDict) :
    (masterEntries m).map Prod.fst =
      m.flatMap fun sp =>
        (sp.2.flatMap fun yp =>
          (yp.2.map fun ce => (ce.1, ce.2.1)).map fun b => (yp.1, b)).map
          fun b => (sp.1, b) := by
  simp only [masterEntries, List.map_flatMap, List.map_map]
  congr 1

lemma processYears_ok_members {site : Site} {school : String} :
    ∀ {years : List (String × String)} {c : Nat} {acc : YearDict}
      {evs : List PostEvent} {c2 : Nat} {d : YearDict},
      processYears site school years c acc = (evs, c2, .ok d) →
      ∀ yp ∈ d, yp ∈ acc ∨ ∃ href c0 evs0 c1,
        (yp.1, href) ∈ years ∧
        processYear site school yp.1 href c0 = (evs0, c1, .ok yp.2) := by
  intro years
  induction years with
  | nil =>
    intro c acc evs c2 d h yp hyp
    simp only [processYears, Prod.mk.injEq, Except.ok.injEq] at h
    obtain ⟨rfl, rfl, rfl⟩ := h
    exact Or.inl hyp
  | cons hd t ih =>
    obtain ⟨year, href⟩ := hd
    intro c acc evs c2 d h yp hyp
    simp only [processYears] at h
    rcases hpy : processYear site school year href c with ⟨evs0, c1, r1⟩
    rw [hpy] at h
    rcases r1 with e1 | entries
    · simp at h
    · rcases hrec : processYears site school t c1 (dictInsert acc year entries)
        with ⟨evs2, c2', r'⟩
      simp only [hrec, Prod.mk.injEq] at h
      obtain ⟨rfl, rfl, rfl⟩ := h
      rcases ih hrec yp hyp with hacc | hfound
      · rcases mem_dictInsert hacc with h1 | h1
        · exact Or.inl h1
        · subst h1
          exact Or.inr ⟨href, c, evs0, c1, List.mem_cons_self _ _, hpy⟩
      · rcases hfound with ⟨href2, c0, evs02, c12, hmem2, hpy2⟩
        exact Or.inr ⟨href2, c0, evs02, c12, List.mem_cons_of_mem _ hmem2, hpy2⟩

lemma processYears_ok_keys {site : Site} {school : String} :
    ∀ {years : List (String × String)} {c : Nat} {acc : YearDict}
      {evs : List PostEvent} {c2 : Nat} {d : YearDict},
      processYears site school years c acc = (evs, c2, .ok d) →
      (acc.map Prod.fst).Nodup → (d.map Prod.fst).Nodup := by
  intro years
  induction years with
  | nil =>
    intro c acc evs c2 d h hacc
    simp only [processYears, Prod.mk.injEq, Except.ok.injEq] at h
    obtain ⟨rfl, rfl, rfl⟩ := h
    exact hacc
  | cons hd t ih =>
    obtain ⟨year, href⟩ := hd
    intro c acc evs c2 d h hacc
    simp only [processYears] at h
    rcases hpy : processYear site school year href c with ⟨evs0, c1, r1⟩
    rw [hpy] at h
    rcases r1 with e1 | entries
    · simp at h
    · rcases hrec : processYears site school t c1 (dictInsert acc year entries)
        with ⟨evs2, c2', r'⟩
      simp only [hrec, Prod.mk.injEq] at h
      obtain ⟨rfl, rfl, rfl⟩ := h
      exact ih hrec (nodup_keys_dictInsert hacc)

lemma processSchools_ok_members {site : Site} :
    ∀ {ids : List (String × String)} {c : Nat} {acc : SchoolDict}
      {evs : List PostEvent} {c2 : Nat} {master : SchoolDict},
      processSchools site ids c acc = (evs, c2, .ok master) →
      ∀ sp ∈ master, sp ∈ acc ∨ ∃ sid c0 evs0 c1,
        (sp.1, sid) ∈ ids ∧
        processSchool site sp.1 sid c0 = (evs0, c1, .ok sp.2) := by
  intro ids
  induction ids with
  | nil =>
    intro c acc evs c2 master h sp hsp
    simp only [processSchools, Prod.mk.injEq, Except.ok.injEq] at h
    obtain ⟨rfl, rfl, rfl⟩ := h
    exact Or.inl hsp
  | cons hd t ih =>
    obtain ⟨school, sid⟩ := hd
    intro c acc evs c2 master h sp hsp
    simp only [processSchools] at h
    rcases hps : processSchool site school sid c with ⟨evs0, c1, r1⟩
    rw [hps] at h
    rcases r1 with e1 | sd
    · simp at h
    · rcases hrec : processSchools site t c1 (dictInsert acc school sd)
        with ⟨evs2, c2', r'⟩
      simp only [hrec, Prod.mk.injEq] at h
      obtain ⟨rfl, rfl, rfl⟩ := h
      rcases ih hrec sp hsp with hacc | hfound
      · rcases mem_dictInsert hacc with h1 | h1
        · exact Or.inl h1
        · subst h1
          exact Or.inr ⟨sid, c, evs0, c1, List.mem_cons_self _ _, hps⟩
      · rcases hfound with ⟨sid2, c0, evs02, c12, hmem2, hps2⟩
        exact Or.inr ⟨sid2, c0, evs02, c12, List.mem_cons_of_mem _ hmem2, hps2⟩

lemma processSchools_ok_keys {site : Site} :
    ∀ {ids : List (String × String)} {c : Nat} {acc : SchoolDict}
      {evs : List PostEvent} {c2 : Nat} {master : SchoolDict},
      processSchools site ids c acc = (evs, c2, .ok master) →
      (acc.map Prod.fst).Nodup → (master.map Prod.fst).Nodup := by
  intro ids
  induction ids with
  | nil =>
    intro c acc evs c2 master h hacc
    simp only [processSchools, Prod.mk.injEq, Except.ok.injEq] at h
    obtain ⟨rfl, rfl, rfl⟩ := h
    exact hacc
  | cons hd t ih =>
    obtain ⟨school, sid⟩ := hd
    intro c acc evs c2 master h hacc
    simp only [processSchools] at h
    rcases hps : processSchool site school sid c with ⟨evs0, c1, r1⟩
    rw [hps] at h
    rcases r1 with e1 | sd
    · simp at h
    · rcases hrec : processSchools site t c1 (dictInsert acc school sd)
        with ⟨evs2, c2', r'⟩
      simp only [hrec, Prod.mk.injEq] at h
      obtain ⟨rfl, rfl, rfl⟩ := h
      exact ih hrec (nodup_keys_dictInsert hacc)

lemma processSchool_ok_inv {site : Site} {school sid : String} {c : Nat}
    {evs : List PostEvent} {c2 : Nat} {ys : YearDict}
    (h : processSchool site school sid c = (evs, c2, .ok ys)) :
    ∃ yearTags years, site.landing (landingUrl sid) = .ok yearTags ∧
      seasonEnum yearTags = .ok years ∧
      ∃ evs0 c1, processYears site school years c [] = (evs0, c1, .ok ys) := by
  simp only [processSchool] at h
  rcases h1 : site.landing (landingUrl sid) with e | yearTags
  · rw [h1] at h
    simp at h
  · simp only [h1] at h
    rcases h2 : seasonEnum yearTags with e | years
    · rw [h2] at h
      simp at h
    · simp only [h2] at h
      rcases h3 : processYears site school years c [] with ⟨evs1, c1, r1⟩
      rw [h3] at h
      rcases r1 with e1 | sd
      · simp at h
      · by_cases hemp : sd = []
        · simp only [if_pos hemp] at h
          simp at h
        · simp only [if_neg hemp, Prod.mk.injEq, Except.ok.injEq] at h
          obtain ⟨rfl, rfl, rfl⟩ := h
          exact ⟨yearTags, years, rfl, h2, evs1, c1, h3⟩

lemma seasonEnum_sub {yearTags years : List (String × String)}
    (h : seasonEnum yearTags = .ok years) : ∀ p ∈ years, p ∈ yearTags := by
  unfold seasonEnum at h
  obtain ⟨rfl, _⟩ := dictPop_ok h
  intro p hp
  exact mem_of_mem_drop (mem_dictOfList (List.mem_of_mem_filter hp))

lemma processYear_catPairs_nodup {site : Site} {school year href : String}
    {c : Nat} {evs : List PostEvent} {c2 : Nat} {entries : List CatEntry}
    (h : processYear site school year href c = (evs, c2, .ok entries)) :
    (entries.map fun ce => (ce.1, ce.2.1)).Nodup := by
  obtain ⟨page, sel, evs1, hits, pA, ppage, psel, evs2, pits, fA, ftables, ft,
    hA, hB, hC, hD, hE, hF, hG, hH, hI, hJ, hK, hL, hM, hN, hO⟩ :=
    processYear_ok h
  subst hO
  obtain ⟨hkH, _⟩ := fetchVariants_ok hC
  obtain ⟨hkP, _⟩ := fetchVariants_ok hG
  have hHn : (hits.map Prod.fst).Nodup := by
    rw [hkH]
    exact nodup_keys_dictOfList _
  have hPn : (pits.map Prod.fst).Nodup := by
    rw [hkP]
    exact nodup_keys_dictOfList _
  have hre : ((hits.map (fun p => ("hitting", p.1, p.2)) ++
      pits.map (fun p => ("pitching", p.1, p.2)) ++
      [("fielding", "Fielding", ft)]).map fun ce : CatEntry => (ce.1, ce.2.1)) =
      (hits.map Prod.fst).map (fun s => ("hitting", s)) ++
      (pits.map Prod.fst).map (fun s => ("pitching", s)) ++
      [("fielding", "Fielding")] := by
    simp only [List.map_append, List.map_map]
    rfl
  rw [hre]
  refine List.Nodup.append (List.Nodup.append ?_ ?_ ?_) (by simp) ?_
  · refine List.Nodup.map ?_ hHn
    intro s1 s2 hs
    exact (Prod.mk.injEq .. |>.mp hs).2
  · refine List.Nodup.map ?_ hPn
    intro s1 s2 hs
    exact (Prod.mk.injEq .. |>.mp hs).2
  · intro x hx1 hx2
    rcases List.mem_map.mp hx1 with ⟨s1, _, rfl⟩
    rcases List.mem_map.mp hx2 with ⟨s2, _, heq⟩
    exact absurd (Prod.mk.injEq .. |>.mp heq).1 (by decide)
  · intro x hx1 hx2
    simp only [List.mem_singleton] at hx2
    subst hx2
    rcases List.mem_append.mp hx1 with hx | hx
    · rcases List.mem_map.mp hx with ⟨s1, _, heq⟩
      exact absurd (Prod.mk.injEq .. |>.mp heq).1 (by decide)
    · rcases List.mem_map.mp hx with ⟨s1, _, heq⟩
      exact absurd (Prod.mk.injEq .. |>.mp heq).1 (by decide)

lemma processYear_labels_nonempty {site : Site} {school year href : String}
    {c : Nat} {evs : List PostEvent} {c2 : Nat} {entries : List CatEntry}
    (h : processYear site school year href c = (evs, c2, .ok entries))
    (h3 : ∀ u page, site.seasonPage u = .ok page → ∀ s ∈ page.selects,
      ∀ o ∈ s.options, o.1 ≠ "") :
    ∀ ce ∈ entries, ce.1 ≠ "" ∧ ce.2.1 ≠ "" := by
  obtain ⟨page, sel, evs1, hits, pA, ppage, psel, evs2, pits, fA, ftables, ft,
    hA, hB, hC, hD, hE, hF, hG, hH, hI, hJ, hK, hL, hM, hN, hO⟩ :=
    processYear_ok h
  subst hO
  obtain ⟨hkH, _⟩ := fetchVariants_ok hC
  obtain ⟨hkP, _⟩ := fetchVariants_ok hG
  intro ce hce
  rcases List.mem_append.mp hce with hab | hc0
  · rcases List.mem_append.mp hab with hh | hp
    · obtain ⟨p, hp0, rfl⟩ := List.mem_map.mp hh
      refine ⟨by simp, ?_⟩
      have hmemk : p.1 ∈ (dictOfList sel.options).map Prod.fst := by
        rw [← hkH]
        exact List.mem_map.mpr ⟨p, hp0, rfl⟩
      rcases List.mem_map.mp (mem_keys_dictOfList.mp hmemk) with ⟨o, ho, hoe⟩
      exact hoe ▸ h3 (baseUrl ++ href) page hA sel (mem_of_get? hB) o ho
    · obtain ⟨p, hp0, rfl⟩ := List.mem_map.mp hp
      refine ⟨by simp, ?_⟩
      have hmemk : p.1 ∈ (dictOfList psel.options).map Prod.fst := by
        rw [← hkP]
        exact List.mem_map.mpr ⟨p, hp0, rfl⟩
      rcases List.mem_map.mp (mem_keys_dictOfList.mp hmemk) with ⟨o, ho, hoe⟩
      exact hoe ▸ h3 (baseUrl ++ pA.2) ppage hE psel (mem_of_get? hF) o ho
  · simp only [List.mem_singleton] at hc0
    subst hc0
    exact ⟨by simp, by simp⟩

/-! ## Claim C1 -/

/-- C1 (amended): in every completed run, no two StatTables contribute rows
under an identical (school, season, category, situation) path — the path is a
composite key identifying each StatTable's source (it comes from nested
Python dicts, whose keys never repeat).  Every component of every path is
non-empty *provided* the site's labels are: the school names, the season
anchor texts and the dropdown option texts feed the path verbatim, so an
empty label on the page yields an empty path component (see the
counterexample). -/
theorem c1_composite_key {ids : List (String × String)} {site : Site}
    {evs : List PostEvent} {m : MasterTable}
    (h : stats ids site = (evs, .ok m))
    (h1 : ∀ p ∈ ids, p.1 ≠ "")
    (h2 : ∀ u anchors, site.landing u = .ok anchors → ∀ a ∈ anchors, a.1 ≠ "")
    (h3 : ∀ u page, site.seasonPage u = .ok page → ∀ s ∈ page.selects,
      ∀ o ∈ s.options, o.1 ≠ "") :
    (m.entries.map Prod.fst).Nodup ∧
    ∀ pt ∈ m.entries, pt.1.1 ≠ "" ∧ pt.1.2.1 ≠ "" ∧ pt.1.2.2.1 ≠ "" ∧
      pt.1.2.2.2 ≠ "" := by
  obtain ⟨master, c1, hps, hne, rfl⟩ := stats_ok_inv h
  constructor
  · show ((masterEntries master).map Prod.fst).Nodup
    rw [masterEntries_paths]
    refine nodup_tag_flatMap master
      (fun v => v.flatMap fun yp =>
        (yp.2.map fun ce => (ce.1, ce.2.1)).map fun b => (yp.1, b))
      (processSchools_ok_keys hps (by simp)) ?_
    intro sp hsp
    rcases processSchools_ok_members hps sp hsp with hsp0 |
      ⟨sid, c0, evs0, c1', hmem, hok⟩
    · simp at hsp0
    · obtain ⟨yearTags, years, hland, hse, evs1, c1'', hys⟩ :=
        processSchool_ok_inv hok
      refine nodup_tag_flatMap sp.2
        (fun entries => entries.map fun ce => (ce.1, ce.2.1))
        (processYears_ok_keys hys (by simp)) ?_
      intro yp hyp
      rcases processYears_ok_members hys yp hyp with hyp0 |
        ⟨href, c00, evs00, c11, hymem, hyok⟩
      · simp at hyp0
      · exact processYear_catPairs_nodup hyok
  · intro pt hpt
    have hpt2 : pt ∈ masterEntries master := hpt
    unfold masterEntries at hpt2
    rcases List.mem_flatMap.mp hpt2 with ⟨sp, hsp, hpt3⟩
    rcases List.mem_flatMap.mp hpt3 with ⟨yp, hyp, hpt4⟩
    rcases List.mem_map.mp hpt4 with ⟨ce, hce, rfl⟩
    rcases processSchools_ok_members hps sp hsp with hsp0 |
      ⟨sid, c0, evs0, c1', hmem, hok⟩
    · simp at hsp0
    · obtain ⟨yearTags, years, hland, hse, evs1, c1'', hys⟩ :=
        processSchool_ok_inv hok
      rcases processYears_ok_members hys yp hyp with hyp0 |
        ⟨href, c00, evs00, c11, hymem, hyok⟩
      · simp at hyp0
      · refine ⟨h1 (sp.1, sid) hmem, ?_, ?_, ?_⟩
        · exact h2 (landingUrl sid) yearTags hland (yp.1, href)
            (seasonEnum_sub hse _ hymem)
        · exact (processYear_labels_nonempty hyok h3 ce hce).1
        · exact (processYear_labels_nonempty hyok h3 ce hce).2

/-- Witness for C1 at the concrete `siteOK` run, whose labels are all
non-empty. -/
theorem c1_composite_key_witness :
    ((MasterTable.mk ["school", "year", "stat", "situation", "num"]
        [(("Alpha", "2014-15", "hitting", "Overall"), tblOf "s0"),
         (("Alpha", "2014-15", "hitting", "Conference"), tblOf "s1"),
         (("Alpha", "2014-15", "pitching", "Overall"), tblOf "s0"),
         (("Alpha", "2014-15", "fielding", "Fielding"), fieldTable)]).entries.map
      Prod.fst).Nodup ∧
    ∀ pt, pt ∈ (MasterTable.mk ["school", "year", "stat", "situation", "num"]
        [(("Alpha", "2014-15", "hitting", "Overall"), tblOf "s0"),
         (("Alpha", "2014-15", "hitting", "Conference"), tblOf "s1"),
         (("Alpha", "2014-15", "pitching", "Overall"), tblOf "s0"),
         (("Alpha", "2014-15", "fielding", "Fielding"), fieldTable)]).entries →
      pt.1.1 ≠ "" ∧ pt.1.2.1 ≠ "" ∧ pt.1.2.2.1 ≠ "" ∧ pt.1.2.2.2 ≠ "" := by
  have h := @c1_composite_key idsOK siteOK
    [⟨"Alpha", "2014-15", "hitting", 0, "https://stats.ncaa.org/y1", "s0"⟩,
     ⟨"Alpha", "2014-15", "hitting", 0, "https://stats.ncaa.org/y1", "s1"⟩,
     ⟨"Alpha", "2014-15", "pitching", 1, "https://stats.ncaa.org/p1", "s0"⟩]
    (MasterTable.mk ["school", "year", "stat", "situation", "num"]
      [(("Alpha", "2014-15", "hitting", "Overall"), tblOf "s0"),
       (("Alpha", "2014-15", "hitting", "Conference"), tblOf "s1"),
       (("Alpha", "2014-15", "pitching", "Overall"), tblOf "s0"),
       (("Alpha", "2014-15", "fielding", "Fielding"), fieldTable)])
    (by decide) (by decide)
    (by
      intro u anchors hl a ha
      simp only [siteOK] at hl
      split at hl
      · obtain rfl := Except.ok.inj hl
        exact (by decide :
          ∀ a2 ∈ [("Home", "/h1"), ("Teams", "/h2"), ("2010-11", "/y0"),
            ("2014-15", "/y1")], a2.1 ≠ "") a ha
      · exact absurd hl (by simp))
    (by
      intro u page hp s hs o ho
      simp only [siteOK] at hp
      split at hp
      · obtain rfl := Except.ok.inj hp
        exact (by decide : ∀ s2 ∈ ([⟨[]⟩, ⟨[]⟩,
            ⟨[("Overall", "s0"), ("Conference", "s1")]⟩] : List SelectCtl),
          ∀ o2 ∈ s2.options, o2.1 ≠ "") s hs o ho
      · split at hp
        · obtain rfl := Except.ok.inj hp
          exact (by decide : ∀ s2 ∈ ([⟨[]⟩, ⟨[]⟩,
              ⟨[("Overall", "s0")]⟩] : List SelectCtl),
            ∀ o2 ∈ s2.options, o2.1 ≠ "") s hs o ho
        · exact absurd hp (by simp))
  exact ⟨h.1, fun pt hpt => h.2 pt hpt⟩

/-- Counterexample to C1 as stated: on `siteC1` the only hitting variant's
option label is the empty string, and the run completes with a MasterTable
row path ("Alpha", "2014-15", "hitting", "") whose situation component is
empty — so not every row of every run carries a non-empty four-level path. -/
theorem c1_counterexample :
    stats idsOK siteC1 =
      ([⟨"Alpha", "2014-15", "hitting", 0, "https://stats.ncaa.org/y1", "s0"⟩,
        ⟨"Alpha", "2014-15", "pitching", 1, "https://stats.ncaa.org/p1", "s0"⟩],
       .ok (MasterTable.mk ["school", "year", "stat", "situation", "num"]
         [(("Alpha", "2014-15", "hitting", ""), tblOf "s0"),
          (("Alpha", "2014-15", "pitching", "Overall"), tblOf "s0"),
          (("Alpha", "2014-15", "fielding", "Fielding"), fieldTable)])) := by
  decide
